import Mathlib

/-!
Verification of the static-analysis engine of `auto-react-test`
(`src/utils/analyzeComponent.ts`, hardened variant).

The development shallowly embeds the Babel-AST subset the analyzer
inspects as a single inductive `Ast` (Babel nodes are dynamically typed
objects dispatched on a `type` tag, so a single tree type with one
constructor per node kind mirrors the source closely), translates every
helper (`getJsxName`, `getJsxProps`, `guessRole`, `literalToString`,
`unwrapDefaultExport`, `isInsideComponent`, `collectPropsFromParams`)
and the two traversal passes of `analyzeComponent`, and proves the
specification claims about them.

Traversal context: Babel visitors query ancestors through
`path.getFunctionParent()` / `path.findParent(..isVariableDeclarator..)`
/ `path.parentPath`; the walk therefore threads the chain of ancestor
frames (nearest first), one frame per AST node on the way down.
-/

namespace AutoReactTest

/-- A JSX attribute / prop value, mirroring the TS value type
`string | boolean` stored in `Record<string, string | boolean>`. -/
inductive PropVal where
  | str (s : String)
  | bool (b : Bool)
deriving DecidableEq, Repr

/-- `JSXElementInfo` of analyzeComponent.ts. JS objects preserve
insertion order, so `props`/`events` are association lists. -/
structure JSXElementInfo where
  type : String
  props : List (String × PropVal)
  text : Option String
  testId : Option String
  events : List (String × String)
  roleHint : Option String
deriving DecidableEq, Repr

/-- `StateInfo` of analyzeComponent.ts. -/
structure StateInfo where
  stateVar : String
  setter : String
deriving DecidableEq, Repr

/-- One entry of the `apis` array: `{type: "axios"|"fetch", method?, url}`. -/
structure ApiInfo where
  type : String
  method : Option String
  url : String
deriving DecidableEq, Repr

/-- `AnalyzedComponent` of analyzeComponent.ts. -/
structure AnalyzedComponent where
  name : String
  elements : List JSXElementInfo
  states : List StateInfo
  effects : Bool
  props : List String
  usesFetch : Bool
  usesAxios : Bool
  apis : List ApiInfo
  effectDeps : List String
  eventToSetterMap : List (String × List String)
deriving DecidableEq, Repr

/-- JS object property read on an insertion-ordered association list. -/
def lookupAssoc {α : Type} (l : List (String × α)) (k : String) : Option α :=
  match l with
  | [] => none
  | (k', v) :: rest => if k' = k then some v else lookupAssoc rest k

/-- JS object property write: overwrite in place if present, else append. -/
def setAssoc {α : Type} (l : List (String × α)) (k : String) (v : α) :
    List (String × α) :=
  match l with
  | [] => [(k, v)]
  | (k', v') :: rest =>
    if k' = k then (k', v) :: rest else (k', v') :: setAssoc rest k v

/-- `JSXIdentifier | JSXMemberExpression | JSXNamespacedName`. -/
inductive JSXName where
  | ident (name : String)
  | member (obj prop : JSXName)
  | namespaced (ns : String) (name : JSXName)
deriving DecidableEq, Repr

/-- The name of a `JSXAttribute`: `JSXIdentifier | JSXNamespacedName`. -/
inductive AttrName where
  | ident (name : String)
  | namespaced (ns nm : String)
deriving DecidableEq, Repr

/-- A property of an `ObjectPattern`, keeping exactly what
`collectPropsFromParams` reads: whether an `ObjectProperty` key, or a
`RestElement` argument, is an `Identifier` and its name. -/
inductive ObjPatProp where
  | prop (keyIdent : Option String)
  | rest (argIdent : Option String)
deriving DecidableEq, Repr

/-- Binding patterns (`Identifier`, `ArrayPattern` with possible holes,
`ObjectPattern`, anything else). The analyzer only ever reads identifier
names out of patterns. -/
inductive Pat where
  | id (name : String)
  | arrayPat (elems : List (Option Pat))
  | objPat (props : List ObjPatProp)
  | otherPat

/-- The Babel-AST subset visited by the analyzer, one constructor per
node kind. Numeric literals store the string `String(node.value)`
prints, since that printed form is all the analyzer ever uses.
`member` models non-computed member expressions `obj.prop`. -/
inductive Ast where
  | ident (name : String)
  | strLit (value : String)
  | numLit (printed : String)
  | boolLit (value : Bool)
  | nullLit
  | member (obj prop : Ast)
  | call (callee : Ast) (args : List Ast)
  | spreadElem (arg : Ast)
  | arrow (params : List Pat) (body : Ast)
  | fnExpr (id : Option String) (params : List Pat) (body : Ast)
  | arrayLit (elems : List (Option Ast))
  | tsAs (expression : Ast)
  | jsxElt (name : JSXName) (attrs : List Ast) (children : List Ast)
  | jsxAttr (name : AttrName) (value : Option Ast)
  | jsxSpreadAttr (arg : Ast)
  | jsxText (value : String)
  | jsxExprContainer (expression : Option Ast)
  | jsxFrag (children : List Ast)
  | exprStmt (expression : Ast)
  | varDecl (declarations : List Ast)
  | varDtor (idPat : Pat) (init : Option Ast)
  | funcDecl (id : Option String) (params : List Pat) (body : Ast)
  | ret (argument : Option Ast)
  | block (body : List Ast)
  | exportDefault (declaration : Ast)

/-- `getJsxName` of analyzeComponent.ts. -/
def getJsxName : JSXName → String
  | .ident n => n
  | .member o p => getJsxName o ++ "." ++ getJsxName p
  | .namespaced ns n => ns ++ ":" ++ getJsxName n

/-- `String.prototype.toLowerCase` restricted to the alphabet the
analyzer compares against (ASCII): lower every character. -/
def jsToLower (s : String) : String := String.mk (s.data.map Char.toLower)

/-- Character-list prefix test (JS `String.prototype.startsWith`). -/
def prefixChars : List Char → List Char → Bool
  | [], _ => true
  | _, [] => false
  | p :: ps, c :: cs => p == c && prefixChars ps cs

/-- JS `s.startsWith(p)`. -/
def jsStartsWith (s p : String) : Bool := prefixChars p.data s.data

/-- JS `String.prototype.trim`: drop whitespace from both ends. -/
def jsTrim (s : String) : String :=
  String.mk (((s.data.dropWhile Char.isWhitespace).reverse.dropWhile
    Char.isWhitespace).reverse)

/-- Babel `t.isLiteral` restricted to the literal kinds of this AST. -/
def isLiteralAst : Ast → Bool
  | .strLit _ => true
  | .numLit _ => true
  | .boolLit _ => true
  | .nullLit => true
  | _ => false

/-- `literalToString` of analyzeComponent.ts: string literals keep their
value, numeric literals print, boolean literals stay booleans, and
anything without a `value` field (including `null` literals, whose node
has no such field) becomes `"dynamic"`. -/
def literalToString : Ast → PropVal
  | .strLit s => .str s
  | .numLit p => .str p
  | .boolLit b => .bool b
  | _ => .str "dynamic"

/-- Result record of `getJsxProps`. -/
structure JsxAttrsResult where
  props : List (String × PropVal)
  testId : Option String
  events : List (String × String)
deriving DecidableEq, Repr

/-- One iteration of the `getJsxProps` loop over an attribute. -/
def processAttr (acc : JsxAttrsResult) (a : Ast) : JsxAttrsResult :=
  match a with
  | .jsxAttr (.ident key) val =>
    let acc :=
      match val with
      | none => { acc with props := setAssoc acc.props key (.bool true) }
      | some (.strLit s) => { acc with props := setAssoc acc.props key (.str s) }
      | some (.jsxExprContainer eo) =>
        match eo with
        | some (.ident n) =>
          let acc := { acc with props := setAssoc acc.props key (.str ("expr:" ++ n)) }
          if jsStartsWith key "on" then { acc with events := setAssoc acc.events key n }
          else acc
        | some e =>
          if isLiteralAst e then
            { acc with props := setAssoc acc.props key (literalToString e) }
          else
            match e with
            | .tsAs inner =>
              match inner with
              | .ident n =>
                let acc :=
                  { acc with props := setAssoc acc.props key (.str ("expr:" ++ n)) }
                if jsStartsWith key "on" then
                  { acc with events := setAssoc acc.events key n }
                else acc
              | _ => { acc with props := setAssoc acc.props key (literalToString inner) }
            | _ => { acc with props := setAssoc acc.props key (.str "dynamic") }
        | none => { acc with props := setAssoc acc.props key (.str "dynamic") }
      | some _ => { acc with props := setAssoc acc.props key (.str "unknown") }
    match val with
    | some (.strLit s) => if key = "data-testid" then { acc with testId := some s } else acc
    | _ => acc
  | _ => acc

/-- `getJsxProps` of analyzeComponent.ts: fold the attributes in order;
spread attributes and non-identifier attribute names are skipped. -/
def getJsxProps (attrs : List Ast) : JsxAttrsResult :=
  attrs.foldl processAttr ⟨[], none, []⟩

/-- JS strict equality of a looked-up prop against a role string
(`props["role"] === r`); a boolean-valued prop never equals a string. -/
def roleIs (props : List (String × PropVal)) (r : String) : Bool :=
  match lookupAssoc props "role" with
  | some (.str s) => s == r
  | _ => false

/-- `String(props["type"] ?? "")`: absent becomes `""`, strings pass
through, booleans print. -/
def propString : Option PropVal → String
  | none => ""
  | some (.str s) => s
  | some (.bool b) => if b then "true" else "false"

/-- The `type` test of `guessRole`'s textbox branch:
`String(props["type"] ?? "").toLowerCase()` is empty or `"text"`. -/
def typeOkForTextbox (props : List (String × PropVal)) : Bool :=
  jsToLower (propString (lookupAssoc props "type")) == "" ||
  jsToLower (propString (lookupAssoc props "type")) == "text"

/-- `guessRole` of analyzeComponent.ts. The second branch falls through
to the link/img checks when the `type` test fails, exactly as the
nested `if` in the source does. -/
def guessRole (name : String) (props : List (String × PropVal)) : Option String :=
  if jsToLower name == "button" || roleIs props "button" then some "button"
  else if (jsToLower name == "input" || roleIs props "textbox")
      && typeOkForTextbox props then some "textbox"
  else if jsToLower name == "a" || roleIs props "link" then some "link"
  else if jsToLower name == "img" || roleIs props "img" then some "img"
  else none

/-- `unwrapDefaultExport` of analyzeComponent.ts, applied to the
default-export declaration node. The source checks, in order: a named
function declaration (JS truthiness: an empty name does not count), a
bare identifier, and a call expression whose first argument is a bare
identifier. -/
def unwrapDefaultExport : Ast → Option String
  | .funcDecl (some n) _ _ => if n = "" then none else some n
  | .ident n => some n
  | .call _ args =>
    match args.head? with
    | some (.ident n) => some n
    | _ => none
  | _ => none

/-- Ancestor frame of a visited node: only the node kinds the analyzer
queries on ancestors carry data (function declarations with their name,
arrows/function expressions, variable declarators with their bound
identifier when the binding pattern is one). -/
inductive Frame where
  | funcDecl (id : Option String)
  | funcLike
  | varDtor (idName : Option String)
  | other
deriving DecidableEq, Repr

/-- The declarator frame's identifier: the bound name when the binding
pattern is a plain identifier. -/
def dtorFrame : Pat → Option String
  | .id n => some n
  | _ => none

/-- The frame a node contributes to its descendants' ancestor chains. -/
def frameOf : Ast → Frame
  | .funcDecl id _ _ => .funcDecl id
  | .arrow _ _ => .funcLike
  | .fnExpr _ _ _ => .funcLike
  | .varDtor p _ => .varDtor (dtorFrame p)
  | _ => .other

/-- `path.getFunctionParent()`: the nearest enclosing function frame,
together with the frames above it (so that `parentPath` of the returned
function is the head of the remainder). -/
def getFunctionParent : List Frame → Option (Frame × List Frame)
  | [] => none
  | f :: rest =>
    match f with
    | .funcDecl n => some (.funcDecl n, rest)
    | .funcLike => some (.funcLike, rest)
    | _ => getFunctionParent rest

/-- `path.findParent(p => p.isVariableDeclarator())`, projected to the
declarator's bound identifier (if its binding pattern is an identifier). -/
def findVarDtor : List Frame → Option (Option String)
  | [] => none
  | f :: rest =>
    match f with
    | .varDtor n => some n
    | _ => findVarDtor rest

/-- `isInsideComponent` of analyzeComponent.ts: the nearest enclosing
function is a function declaration named like the component, or the
nearest enclosing variable declarator binds an identifier of that name. -/
def isInsideComponent (ancs : List Frame) (componentName : String) : Bool :=
  (match getFunctionParent ancs with
   | some (.funcDecl (some n), _) => n == componentName
   | _ => false)
  ||
  (match findVarDtor ancs with
   | some (some n) => n == componentName
   | _ => false)

/-- `collectPropsFromParams` of analyzeComponent.ts: inspect the first
parameter only; a destructuring pattern contributes its identifier keys
and rest binding, a plain identifier contributes itself. -/
def collectPropsFromParams (params : List Pat) (props : List String) : List String :=
  match params.head? with
  | some (.objPat ps) =>
    props ++ ps.foldl (fun acc pr =>
      match pr with
      | .prop (some k) => acc ++ [k]
      | .rest (some a) => acc ++ [a]
      | _ => acc) []
  | some (.id n) => props ++ [n]
  | _ => props

/-- The accumulators of one `analyzeComponent` invocation. -/
structure St where
  elements : List JSXElementInfo
  states : List StateInfo
  props : List String
  effectDeps : List String
  eventToSetterMap : List (String × List String)
  effects : Bool
  usesFetch : Bool
  usesAxios : Bool
  apis : List ApiInfo
deriving DecidableEq, Repr

/-- Fresh accumulators. -/
def initSt : St := ⟨[], [], [], [], [], false, false, false, []⟩

/-- `arguments[0] && isStringLiteral(arguments[0]) ? value : "unknown"`. -/
def urlArg (args : List Ast) : String :=
  match args.head? with
  | some (.strLit u) => u
  | _ => "unknown"

/-- The `CallExpression` visitor of the effect-body sub-walk: record
`axios.<method>(url?)` and `fetch(url?)` calls (both checks run, in this
order, on every call expression). -/
def apiCallStep (st : St) (callee : Ast) (args : List Ast) : St :=
  let st1 :=
    match callee with
    | .member (.ident o) (.ident m) =>
      if o = "axios" then
        { st with usesAxios := true,
                  apis := st.apis ++ [⟨"axios", some m, urlArg args⟩] }
      else st
    | _ => st
  match callee with
  | .ident f =>
    if f = "fetch" then
      { st1 with usesFetch := true,
                 apis := st1.apis ++ [⟨"fetch", none, urlArg args⟩] }
    else st1
  | _ => st1

mutual
/-- The effect-body sub-walk of analyzeComponent.ts: re-walk the effect
callback's statements with the api-recording visitor, in pre-order. -/
def scanApis (st : St) : Ast → St
  | .call callee args =>
    scanApisList (scanApis (apiCallStep st callee args) callee) args
  | .member o p => scanApis (scanApis st o) p
  | .spreadElem e => scanApis st e
  | .arrow _ b => scanApis st b
  | .fnExpr _ _ b => scanApis st b
  | .arrayLit es => scanApisOptList st es
  | .tsAs e => scanApis st e
  | .jsxElt _ attrs children => scanApisList (scanApisList st attrs) children
  | .jsxAttr _ v => scanApisOpt st v
  | .jsxSpreadAttr e => scanApis st e
  | .jsxExprContainer e => scanApisOpt st e
  | .jsxFrag cs => scanApisList st cs
  | .exprStmt e => scanApis st e
  | .varDecl ds => scanApisList st ds
  | .varDtor _ init => scanApisOpt st init
  | .funcDecl _ _ b => scanApis st b
  | .ret e => scanApisOpt st e
  | .block ss => scanApisList st ss
  | .exportDefault d => scanApis st d
  | _ => st

def scanApisList (st : St) : List Ast → St
  | [] => st
  | a :: rest => scanApisList (scanApis st a) rest

def scanApisOpt (st : St) : Option Ast → St
  | none => st
  | some a => scanApis st a

def scanApisOptList (st : St) : List (Option Ast) → St
  | [] => st
  | a :: rest => scanApisOptList (scanApisOpt st a) rest
end

/-- Callee test for the `useEffect` branch: bare `useEffect` or
`React.useEffect`. -/
def isUseEffectCallee : Ast → Bool
  | .ident n => n == "useEffect"
  | .member (.ident o) (.ident p) => o == "React" && p == "useEffect"
  | _ => false

/-- Callee test for the `useState` branch: bare `useState` or
`React.useState`. -/
def isUseStateCallee : Ast → Bool
  | .ident n => n == "useState"
  | .member (.ident o) (.ident p) => o == "React" && p == "useState"
  | _ => false

/-- The state pair the `VariableDeclarator` visitor records: an array
pattern whose first two elements are identifiers, initialized by a call
to the state constructor. -/
def statePairOf (p : Pat) (init : Option Ast) : Option StateInfo :=
  match p, init with
  | .arrayPat elems, some (.call callee _) =>
    if isUseStateCallee callee then
      match elems.getD 0 none, elems.getD 1 none with
      | some (.id v), some (.id s) => some ⟨v, s⟩
      | _, _ => none
    else none
  | _, _ => none

/-- The `VariableDeclarator` visitor of pass 2: the props branch runs
before the scope filter, the `useState` branch only in scope. -/
def dtorVisitor (c : String) (ancs : List Frame) (p : Pat) (init : Option Ast)
    (st : St) : St :=
  let st1 :=
    match p, init with
    | .id n, some (.arrow params _) =>
      if n = c then { st with props := collectPropsFromParams params st.props } else st
    | .id n, some (.fnExpr _ params _) =>
      if n = c then { st with props := collectPropsFromParams params st.props } else st
    | _, _ => st
  if isInsideComponent ancs c then
    { st1 with states := st1.states ++ (statePairOf p init).toList }
  else st1

/-- The element record the `JSXElement` visitor builds for one node. -/
def mkElementRecord (name : JSXName) (attrs children : List Ast) : JSXElementInfo :=
  let r := getJsxProps attrs
  let type := getJsxName name
  let text :=
    match children.find? (fun a => match a with | .jsxText _ => true | _ => false) with
    | some (.jsxText s) => some (jsTrim s)
    | _ => none
  ⟨type, r.props, text, r.testId, r.events, guessRole type r.props⟩

/-- The `JSXElement` visitor of pass 2. -/
def jsxVisitor (c : String) (ancs : List Frame) (name : JSXName)
    (attrs children : List Ast) (st : St) : St :=
  if isInsideComponent ancs c then
    { st with elements := st.elements ++ [mkElementRecord name attrs children] }
  else st

/-- The `FunctionDeclaration` visitor of pass 2 (not scope filtered). -/
def funcDeclVisitor (c : String) (id : Option String) (params : List Pat)
    (st : St) : St :=
  if id = some c then { st with props := collectPropsFromParams params st.props }
  else st

/-- Identifier elements of a dependency array, in order
(`deps.elements.forEach(el => { if (t.isIdentifier(el)) push })`). -/
def depsOf (args : List Ast) : List String :=
  match args[1]? with
  | some (Ast.arrayLit elems) =>
    elems.filterMap (fun el => match el with | some (.ident n) => some n | _ => none)
  | _ => []

/-- The statements the effect sub-walk runs over: the callback's block
body, or its expression body wrapped in an expression statement. -/
def effectStmts (body : Ast) : List Ast :=
  match body with
  | .block ss => ss
  | e => [.exprStmt e]

/-- The handler name derived for a setter call: the identifier of the
variable declarator the enclosing function was assigned to, else the
enclosing function declaration's (truthy) name. -/
def handlerNameOf (ancs : List Frame) : Option String :=
  match getFunctionParent ancs with
  | none => none
  | some (f, rest) =>
    let n :=
      match rest.head? with
      | some (.varDtor (some m)) => m
      | _ =>
        match f with
        | .funcDecl (some m) => m
        | _ => ""
    if n = "" then none else some n

/-- The keys of `Object.prototype` (Node/V8): `eventToSetterMap` is a
plain `{}` object, so `eventToSetterMap[name]` for one of these names,
absent an own entry, resolves through the prototype chain to a truthy
inherited value. -/
def objectProtoKeys : List String :=
  ["constructor", "hasOwnProperty", "isPrototypeOf", "propertyIsEnumerable",
   "toLocaleString", "toString", "valueOf",
   "__defineGetter__", "__defineSetter__", "__lookupGetter__",
   "__lookupSetter__", "__proto__"]

/-- Faithful model of
`if (!eventToSetterMap[name]) eventToSetterMap[name] = [];
eventToSetterMap[name].push(setter)` on a plain `{}` object. An own
entry (an array, always truthy) passes the guard and is pushed to. With
no own entry, a name inherited from `Object.prototype` (e.g.
`"toString"`) yields a truthy non-array, so the guard skips the
initialization and `.push` on the inherited value throws a TypeError
(`none`); any other name is initialized and pushed. -/
def addSetterJs (m : List (String × List String)) (k v : String) :
    Option (List (String × List String)) :=
  match lookupAssoc m k with
  | some l => some (setAssoc m k (l ++ [v]))
  | none =>
    if k ∈ objectProtoKeys then none
    else some (m ++ [(k, [v])])

/-- The successful path of
`if (!map[name]) map[name] = []; map[name].push(setter)`: the behavior
whenever no TypeError is thrown, i.e. total on exactly the inputs where
`addSetterJs` returns `some`, and agreeing with it there
(`addSetterJs_agree`). -/
def addSetter (m : List (String × List String)) (k v : String) :
    List (String × List String) :=
  match lookupAssoc m k with
  | none => m ++ [(k, [v])]
  | some l => setAssoc m k (l ++ [v])

/-- The `useEffect` block of the `CallExpression` visitor: set the
effects flag, record the dependency array's identifier elements, and
sub-walk the callback's body for network calls. -/
def useEffectStep (callee : Ast) (args : List Ast) (st : St) : St :=
  if isUseEffectCallee callee then
    let st1 := { st with effects := true, effectDeps := st.effectDeps ++ depsOf args }
    match args.head? with
    | some (.arrow _ body) => scanApisList st1 (effectStmts body)
    | some (.fnExpr _ _ body) => scanApisList st1 (effectStmts body)
    | _ => st1
  else st

/-- The setter-call block of the `CallExpression` visitor, faithful to
the thrown TypeError: a bare identifier callee matching a recorded
setter, mapped under the derived handler name (when one exists) via
`addSetterJs`; `none` propagates the uncaught TypeError. -/
def setterStepJs (ancs : List Frame) (callee : Ast) (st1 : St) : Option St :=
  match callee with
  | .ident setterName =>
    if (st1.states.find? (fun s => s.setter = setterName)).isSome then
      match handlerNameOf ancs with
      | some n =>
        match addSetterJs st1.eventToSetterMap n setterName with
        | some m => some { st1 with eventToSetterMap := m }
        | none => none
      | none => some st1
    else some st1
  | _ => some st1

/-- Crash-free projection of `setterStepJs` (total `addSetter` in place
of the fallible `addSetterJs`); both agree whenever no TypeError is
thrown (`setterStepJs_agree`). -/
def setterStep (ancs : List Frame) (callee : Ast) (st1 : St) : St :=
  match callee with
  | .ident setterName =>
    if (st1.states.find? (fun s => s.setter = setterName)).isSome then
      match handlerNameOf ancs with
      | some n =>
        { st1 with eventToSetterMap := addSetter st1.eventToSetterMap n setterName }
      | none => st1
    else st1
  | _ => st1

/-- The `CallExpression` visitor of pass 2, faithful to the thrown
TypeError: scope filter, the `useEffect` block, then the fallible
setter-call block against the states recorded so far. -/
def callVisitorJs (c : String) (ancs : List Frame) (callee : Ast) (args : List Ast)
    (st : St) : Option St :=
  if isInsideComponent ancs c then
    setterStepJs ancs callee (useEffectStep callee args st)
  else some st

/-- Crash-free projection of `callVisitorJs`: scope filter, the
`useEffect` block (effects flag, dependency array, effect-body
sub-walk), then the setter-call block against the states recorded so
far. -/
def callVisitor (c : String) (ancs : List Frame) (callee : Ast) (args : List Ast)
    (st : St) : St :=
  if isInsideComponent ancs c then
    setterStep ancs callee (useEffectStep callee args st)
  else st

mutual
/-- Pass 2 of `analyzeComponent`, faithful to the thrown TypeError: one
pre-order traversal running the four visitors, threading the
accumulators and the ancestor frames (nearest first; every node
contributes one frame to its descendants); `none` (the uncaught
TypeError from the setter-call block) aborts the rest of the traversal. -/
def walkJs (c : String) (st : St) (ancs : List Frame) : Ast → Option St
  | .ident _ => some st
  | .strLit _ => some st
  | .numLit _ => some st
  | .boolLit _ => some st
  | .nullLit => some st
  | .member o p =>
    match walkJs c st (.other :: ancs) o with
    | none => none
    | some st1 => walkJs c st1 (.other :: ancs) p
  | .call callee args =>
    match callVisitorJs c ancs callee args st with
    | none => none
    | some st1 =>
      match walkJs c st1 (.other :: ancs) callee with
      | none => none
      | some st2 => walkListJs c st2 (.other :: ancs) args
  | .spreadElem e => walkJs c st (.other :: ancs) e
  | .arrow _ body => walkJs c st (.funcLike :: ancs) body
  | .fnExpr _ _ body => walkJs c st (.funcLike :: ancs) body
  | .arrayLit es => walkOptListJs c st (.other :: ancs) es
  | .tsAs e => walkJs c st (.other :: ancs) e
  | .jsxElt name attrs children =>
    match walkListJs c (jsxVisitor c ancs name attrs children st)
        (.other :: .other :: ancs) attrs with
    | none => none
    | some st1 => walkListJs c st1 (.other :: ancs) children
  | .jsxAttr _ v => walkOptJs c st (.other :: ancs) v
  | .jsxSpreadAttr e => walkJs c st (.other :: ancs) e
  | .jsxText _ => some st
  | .jsxExprContainer e => walkOptJs c st (.other :: ancs) e
  | .jsxFrag cs => walkListJs c st (.other :: ancs) cs
  | .exprStmt e => walkJs c st (.other :: ancs) e
  | .varDecl ds => walkListJs c st (.other :: ancs) ds
  | .varDtor p init =>
    walkOptJs c (dtorVisitor c ancs p init st) (.varDtor (dtorFrame p) :: ancs) init
  | .funcDecl id params body =>
    walkJs c (funcDeclVisitor c id params st) (.funcDecl id :: ancs) body
  | .ret e => walkOptJs c st (.other :: ancs) e
  | .block ss => walkListJs c st (.other :: ancs) ss
  | .exportDefault d => walkJs c st (.other :: ancs) d

def walkListJs (c : String) (st : St) (ancs : List Frame) : List Ast → Option St
  | [] => some st
  | a :: rest =>
    match walkJs c st ancs a with
    | none => none
    | some st1 => walkListJs c st1 ancs rest

def walkOptJs (c : String) (st : St) (ancs : List Frame) : Option Ast → Option St
  | none => some st
  | some a => walkJs c st ancs a

def walkOptListJs (c : String) (st : St) (ancs : List Frame) :
    List (Option Ast) → Option St
  | [] => some st
  | a :: rest =>
    match walkOptJs c st ancs a with
    | none => none
    | some st1 => walkOptListJs c st1 ancs rest
end

mutual
/-- Crash-free projection of pass 2 (`walkJs` with the total setter
block): identical updates in identical order, and provably equal to
`walkJs`'s value on every run that throws no TypeError
(`walkJs_agree`). -/
def walk (c : String) (st : St) (ancs : List Frame) : Ast → St
  | .ident _ => st
  | .strLit _ => st
  | .numLit _ => st
  | .boolLit _ => st
  | .nullLit => st
  | .member o p => walk c (walk c st (.other :: ancs) o) (.other :: ancs) p
  | .call callee args =>
    let st := callVisitor c ancs callee args st
    walkList c (walk c st (.other :: ancs) callee) (.other :: ancs) args
  | .spreadElem e => walk c st (.other :: ancs) e
  | .arrow _ body => walk c st (.funcLike :: ancs) body
  | .fnExpr _ _ body => walk c st (.funcLike :: ancs) body
  | .arrayLit es => walkOptList c st (.other :: ancs) es
  | .tsAs e => walk c st (.other :: ancs) e
  | .jsxElt name attrs children =>
    let st := jsxVisitor c ancs name attrs children st
    walkList c (walkList c st (.other :: .other :: ancs) attrs) (.other :: ancs) children
  | .jsxAttr _ v => walkOpt c st (.other :: ancs) v
  | .jsxSpreadAttr e => walk c st (.other :: ancs) e
  | .jsxText _ => st
  | .jsxExprContainer e => walkOpt c st (.other :: ancs) e
  | .jsxFrag cs => walkList c st (.other :: ancs) cs
  | .exprStmt e => walk c st (.other :: ancs) e
  | .varDecl ds => walkList c st (.other :: ancs) ds
  | .varDtor p init =>
    let st := dtorVisitor c ancs p init st
    walkOpt c st (.varDtor (dtorFrame p) :: ancs) init
  | .funcDecl id params body =>
    let st := funcDeclVisitor c id params st
    walk c st (.funcDecl id :: ancs) body
  | .ret e => walkOpt c st (.other :: ancs) e
  | .block ss => walkList c st (.other :: ancs) ss
  | .exportDefault d => walk c st (.other :: ancs) d

def walkList (c : String) (st : St) (ancs : List Frame) : List Ast → St
  | [] => st
  | a :: rest => walkList c (walk c st ancs a) ancs rest

def walkOpt (c : String) (st : St) (ancs : List Frame) : Option Ast → St
  | none => st
  | some a => walk c st ancs a

def walkOptList (c : String) (st : St) (ancs : List Frame) : List (Option Ast) → St
  | [] => st
  | a :: rest => walkOptList c (walkOpt c st ancs a) ancs rest
end

/-- Pass 1 step at one `ExportDefaultDeclaration`:
`if (u.name) componentName = u.name` (JS truthiness: an empty name
leaves the previous value). -/
def applyExport (acc : String) (d : Ast) : String :=
  match unwrapDefaultExport d with
  | some n => if n = "" then acc else n
  | none => acc

/-- Pass 1 of `analyzeComponent`: scan the module's (top-level) export
default declarations, starting from the `"Anonymous"` sentinel. -/
def resolveName (file : List Ast) : String :=
  file.foldl (fun acc a =>
    match a with
    | .exportDefault d => applyExport acc d
    | _ => acc) "Anonymous"

/-- Pass 2 over the whole file (the `Program` node contributes a
transparent frame). -/
def walkFile (c : String) (st : St) (file : List Ast) : St :=
  walkList c st [Frame.other] file

/-- The returned object of `analyzeComponent`, assembled from the
resolved name and the final accumulators. -/
def finishSt (componentName : String) (st : St) : AnalyzedComponent :=
  ⟨componentName, st.elements, st.states, st.effects, st.props,
   st.usesFetch, st.usesAxios, st.apis, st.effectDeps, st.eventToSetterMap⟩

/-- Pass 2 over the whole file, faithful to the thrown TypeError. -/
def walkFileJs (c : String) (st : St) (file : List Ast) : Option St :=
  walkListJs c st [Frame.other] file

/-- `analyzeComponent` on an already-parsed tree, faithful to the
thrown TypeError: pass 1 then pass 2; `none` when pass 2 throws. -/
def analyzeAstJs (file : List Ast) : Option AnalyzedComponent :=
  match walkFileJs (resolveName file) initSt file with
  | none => none
  | some st => some (finishSt (resolveName file) st)

/-- Crash-free projection of `analyzeAstJs`: pass 1 then the total
pass 2, assembling the returned object; equal to `analyzeAstJs`'s value
on every run that throws no TypeError (`analyzeAstJs_agree`). -/
def analyzeAst (file : List Ast) : AnalyzedComponent :=
  finishSt (resolveName file) (walkFile (resolveName file) initSt file)

/-- An error escaping one `analyzeComponent` invocation: the boundary's
own `new Error(...)` with its descriptive message, or the uncaught
TypeError thrown by the setter-call block of pass 2 (which runs outside
both try/catch wrappers). -/
inductive AnalyzeError where
  | wrapped (msg : String)
  | typeError
deriving DecidableEq, Repr

/-- The full `analyzeComponent`, faithful to every raised error: a
failed read or parse is wrapped in a single descriptive error naming
the file path and the underlying cause; pass 2's TypeError, if any,
escapes unwrapped. The read result and the parser are passed as
values, standing for the external collaborators `fs.readFileSync` and
`parser.parse`. -/
def analyzeComponentJs (filePath : String) (readResult : Except String String)
    (parse : String → Except String (List Ast)) :
    Except AnalyzeError AnalyzedComponent :=
  match readResult with
  | .error msg => .error (.wrapped ("Failed to read file \"" ++ filePath ++ "\": " ++ msg))
  | .ok code =>
    match parse code with
    | .error msg => .error (.wrapped ("Failed to parse \"" ++ filePath ++ "\": " ++ msg))
    | .ok ast =>
      match analyzeAstJs ast with
      | none => .error .typeError
      | some r => .ok r

/-- Crash-free projection of the boundary: wrap a failed read or a
failed parse in the descriptive error, else the total analysis of the
parsed tree. -/
def analyzeComponent (filePath : String) (readResult : Except String String)
    (parse : String → Except String (List Ast)) : Except String AnalyzedComponent :=
  match readResult with
  | .error msg => .error ("Failed to read file \"" ++ filePath ++ "\": " ++ msg)
  | .ok code =>
    match parse code with
    | .error msg => .error ("Failed to parse \"" ++ filePath ++ "\": " ++ msg)
    | .ok ast => .ok (analyzeAst ast)

/-! ### Pure characterization of the effect-body sub-walk -/

/-- The three accumulator fields the sub-walk touches. -/
structure ApiAcc where
  apis : List ApiInfo
  usesFetch : Bool
  usesAxios : Bool
deriving DecidableEq, Repr

/-- Empty sub-walk contribution. -/
def ApiAcc.empty : ApiAcc := ⟨[], false, false⟩

/-- Sequential composition of sub-walk contributions. -/
def ApiAcc.comp (x y : ApiAcc) : ApiAcc :=
  ⟨x.apis ++ y.apis, x.usesFetch || y.usesFetch, x.usesAxios || y.usesAxios⟩

/-- Apply a sub-walk contribution to the accumulators. -/
def mergeApi (st : St) (a : ApiAcc) : St :=
  { st with apis := st.apis ++ a.apis,
            usesFetch := st.usesFetch || a.usesFetch,
            usesAxios := st.usesAxios || a.usesAxios }

/-- The contribution of one call expression's own api checks. -/
def apiCallAcc (callee : Ast) (args : List Ast) : ApiAcc :=
  let a1 :=
    match callee with
    | .member (.ident o) (.ident m) =>
      if o = "axios" then (⟨[⟨"axios", some m, urlArg args⟩], false, true⟩ : ApiAcc)
      else .empty
    | _ => .empty
  let a2 :=
    match callee with
    | .ident f =>
      if f = "fetch" then (⟨[⟨"fetch", none, urlArg args⟩], true, false⟩ : ApiAcc)
      else .empty
    | _ => .empty
  a1.comp a2

mutual
/-- State-free rendering of the sub-walk: the network calls recorded in
a subtree, in traversal order. -/
def apiGather : Ast → ApiAcc
  | .call callee args =>
    (apiCallAcc callee args).comp ((apiGather callee).comp (apiGatherList args))
  | .member o p => (apiGather o).comp (apiGather p)
  | .spreadElem e => apiGather e
  | .arrow _ b => apiGather b
  | .fnExpr _ _ b => apiGather b
  | .arrayLit es => apiGatherOptList es
  | .tsAs e => apiGather e
  | .jsxElt _ attrs children => (apiGatherList attrs).comp (apiGatherList children)
  | .jsxAttr _ v => apiGatherOpt v
  | .jsxSpreadAttr e => apiGather e
  | .jsxExprContainer e => apiGatherOpt e
  | .jsxFrag cs => apiGatherList cs
  | .exprStmt e => apiGather e
  | .varDecl ds => apiGatherList ds
  | .varDtor _ init => apiGatherOpt init
  | .funcDecl _ _ b => apiGather b
  | .ret e => apiGatherOpt e
  | .block ss => apiGatherList ss
  | .exportDefault d => apiGather d
  | _ => .empty

def apiGatherList : List Ast → ApiAcc
  | [] => .empty
  | a :: rest => (apiGather a).comp (apiGatherList rest)

def apiGatherOpt : Option Ast → ApiAcc
  | none => .empty
  | some a => apiGather a

def apiGatherOptList : List (Option Ast) → ApiAcc
  | [] => .empty
  | a :: rest => (apiGatherOpt a).comp (apiGatherOptList rest)
end

theorem mergeApi_empty (st : St) : mergeApi st .empty = st := by
  simp [mergeApi, ApiAcc.empty]

theorem mergeApi_comp (st : St) (x y : ApiAcc) :
    mergeApi (mergeApi st x) y = mergeApi st (x.comp y) := by
  simp [mergeApi, ApiAcc.comp, Bool.or_assoc]

theorem apiCallStep_eq (st : St) (callee : Ast) (args : List Ast) :
    apiCallStep st callee args = mergeApi st (apiCallAcc callee args) := by
  cases callee
  case ident f =>
    by_cases h : f = "fetch" <;>
      simp [apiCallStep, apiCallAcc, h, mergeApi, ApiAcc.comp, ApiAcc.empty]
  case member o p =>
    cases o <;> cases p <;>
      simp only [apiCallStep, apiCallAcc] <;>
      (try split) <;>
      simp [mergeApi, ApiAcc.comp, ApiAcc.empty]
  all_goals
    simp [apiCallStep, apiCallAcc, mergeApi, ApiAcc.comp, ApiAcc.empty]

mutual
theorem scanApis_eq : ∀ (a : Ast) (st : St),
    scanApis st a = mergeApi st (apiGather a)
  | .ident _, st => by simp [scanApis, apiGather, mergeApi_empty]
  | .strLit _, st => by simp [scanApis, apiGather, mergeApi_empty]
  | .numLit _, st => by simp [scanApis, apiGather, mergeApi_empty]
  | .boolLit _, st => by simp [scanApis, apiGather, mergeApi_empty]
  | .nullLit, st => by simp [scanApis, apiGather, mergeApi_empty]
  | .member o p, st => by
    rw [scanApis, apiGather, scanApis_eq o, scanApis_eq p, mergeApi_comp]
  | .call callee args, st => by
    rw [scanApis, apiGather, apiCallStep_eq, scanApis_eq callee,
      scanApisList_eq args, mergeApi_comp, mergeApi_comp]
  | .spreadElem e, st => by rw [scanApis, apiGather, scanApis_eq e]
  | .arrow _ b, st => by rw [scanApis, apiGather, scanApis_eq b]
  | .fnExpr _ _ b, st => by rw [scanApis, apiGather, scanApis_eq b]
  | .arrayLit es, st => by rw [scanApis, apiGather, scanApisOptList_eq es]
  | .tsAs e, st => by rw [scanApis, apiGather, scanApis_eq e]
  | .jsxElt _ attrs children, st => by
    rw [scanApis, apiGather, scanApisList_eq attrs, scanApisList_eq children,
      mergeApi_comp]
  | .jsxAttr _ v, st => by rw [scanApis, apiGather, scanApisOpt_eq v]
  | .jsxSpreadAttr e, st => by rw [scanApis, apiGather, scanApis_eq e]
  | .jsxText _, st => by simp [scanApis, apiGather, mergeApi_empty]
  | .jsxExprContainer e, st => by rw [scanApis, apiGather, scanApisOpt_eq e]
  | .jsxFrag cs, st => by rw [scanApis, apiGather, scanApisList_eq cs]
  | .exprStmt e, st => by rw [scanApis, apiGather, scanApis_eq e]
  | .varDecl ds, st => by rw [scanApis, apiGather, scanApisList_eq ds]
  | .varDtor _ init, st => by rw [scanApis, apiGather, scanApisOpt_eq init]
  | .funcDecl _ _ b, st => by rw [scanApis, apiGather, scanApis_eq b]
  | .ret e, st => by rw [scanApis, apiGather, scanApisOpt_eq e]
  | .block ss, st => by rw [scanApis, apiGather, scanApisList_eq ss]
  | .exportDefault d, st => by rw [scanApis, apiGather, scanApis_eq d]

theorem scanApisList_eq : ∀ (l : List Ast) (st : St),
    scanApisList st l = mergeApi st (apiGatherList l)
  | [], st => by simp [scanApisList, apiGatherList, mergeApi_empty]
  | a :: rest, st => by
    rw [scanApisList, apiGatherList, scanApis_eq a, scanApisList_eq rest,
      mergeApi_comp]

theorem scanApisOpt_eq : ∀ (o : Option Ast) (st : St),
    scanApisOpt st o = mergeApi st (apiGatherOpt o)
  | none, st => by simp [scanApisOpt, apiGatherOpt, mergeApi_empty]
  | some a, st => by rw [scanApisOpt, apiGatherOpt, scanApis_eq a]

theorem scanApisOptList_eq : ∀ (l : List (Option Ast)) (st : St),
    scanApisOptList st l = mergeApi st (apiGatherOptList l)
  | [], st => by simp [scanApisOptList, apiGatherOptList, mergeApi_empty]
  | a :: rest, st => by
    rw [scanApisOptList, apiGatherOptList, scanApisOpt_eq a,
      scanApisOptList_eq rest, mergeApi_comp]
end

/-! ### How each pass-2 visitor touches elements and states -/

theorem jsxVisitor_elements (c : String) (ancs : List Frame) (name : JSXName)
    (attrs children : List Ast) (st : St) :
    (jsxVisitor c ancs name attrs children st).elements =
      st.elements ++
        (if isInsideComponent ancs c then [mkElementRecord name attrs children]
         else []) := by
  unfold jsxVisitor; split <;> simp

theorem jsxVisitor_states (c : String) (ancs : List Frame) (name : JSXName)
    (attrs children : List Ast) (st : St) :
    (jsxVisitor c ancs name attrs children st).states = st.states := by
  unfold jsxVisitor; split <;> simp

theorem dtorVisitor_elements (c : String) (ancs : List Frame) (p : Pat)
    (init : Option Ast) (st : St) :
    (dtorVisitor c ancs p init st).elements = st.elements := by
  unfold dtorVisitor
  repeat' split <;> (try simp)

theorem dtorVisitor_states (c : String) (ancs : List Frame) (p : Pat)
    (init : Option Ast) (st : St) :
    (dtorVisitor c ancs p init st).states =
      st.states ++
        (if isInsideComponent ancs c then (statePairOf p init).toList else []) := by
  unfold dtorVisitor
  repeat' split <;> (try simp)

theorem funcDeclVisitor_elements (c : String) (id : Option String)
    (params : List Pat) (st : St) :
    (funcDeclVisitor c id params st).elements = st.elements := by
  unfold funcDeclVisitor; split <;> simp

theorem funcDeclVisitor_states (c : String) (id : Option String)
    (params : List Pat) (st : St) :
    (funcDeclVisitor c id params st).states = st.states := by
  unfold funcDeclVisitor; split <;> simp

theorem callVisitor_elements (c : String) (ancs : List Frame) (callee : Ast)
    (args : List Ast) (st : St) :
    (callVisitor c ancs callee args st).elements = st.elements := by
  unfold callVisitor setterStep useEffectStep
  repeat' split <;> (try simp_all [scanApisList_eq, mergeApi])

theorem callVisitor_states (c : String) (ancs : List Frame) (callee : Ast)
    (args : List Ast) (st : St) :
    (callVisitor c ancs callee args st).states = st.states := by
  unfold callVisitor setterStep useEffectStep
  repeat' split <;> (try simp_all [scanApisList_eq, mergeApi])

/-! ### Pure characterization of elements and states

`esGather` renders, without threading accumulators, exactly which
element records and state pairs pass 2 collects: one element record per
JSX node whose ancestor frames satisfy the scope filter, one state pair
per variable declarator in scope matching the `useState` idiom, in
traversal order. -/

/-- Element-and-state contribution of a subtree. -/
structure ESAcc where
  elements : List JSXElementInfo
  states : List StateInfo
deriving DecidableEq, Repr

/-- Empty contribution. -/
def ESAcc.empty : ESAcc := ⟨[], []⟩

/-- Sequential composition of contributions. -/
def ESAcc.comp (x y : ESAcc) : ESAcc :=
  ⟨x.elements ++ y.elements, x.states ++ y.states⟩

mutual
/-- Element records and state pairs contributed by one subtree, given
the component name and the ancestor frames of the subtree's root. -/
def esGather (c : String) (ancs : List Frame) : Ast → ESAcc
  | .member o p =>
    (esGather c (.other :: ancs) o).comp (esGather c (.other :: ancs) p)
  | .call callee args =>
    (esGather c (.other :: ancs) callee).comp (esGatherList c (.other :: ancs) args)
  | .spreadElem e => esGather c (.other :: ancs) e
  | .arrow _ body => esGather c (.funcLike :: ancs) body
  | .fnExpr _ _ body => esGather c (.funcLike :: ancs) body
  | .arrayLit es => esGatherOptList c (.other :: ancs) es
  | .tsAs e => esGather c (.other :: ancs) e
  | .jsxElt name attrs children =>
    (⟨if isInsideComponent ancs c then [mkElementRecord name attrs children]
       else [], []⟩ : ESAcc).comp
      ((esGatherList c (.other :: .other :: ancs) attrs).comp
        (esGatherList c (.other :: ancs) children))
  | .jsxAttr _ v => esGatherOpt c (.other :: ancs) v
  | .jsxSpreadAttr e => esGather c (.other :: ancs) e
  | .jsxExprContainer e => esGatherOpt c (.other :: ancs) e
  | .jsxFrag cs => esGatherList c (.other :: ancs) cs
  | .exprStmt e => esGather c (.other :: ancs) e
  | .varDecl ds => esGatherList c (.other :: ancs) ds
  | .varDtor p init =>
    (⟨[], if isInsideComponent ancs c then (statePairOf p init).toList
          else []⟩ : ESAcc).comp
      (esGatherOpt c (.varDtor (dtorFrame p) :: ancs) init)
  | .funcDecl id _ body => esGather c (.funcDecl id :: ancs) body
  | .ret e => esGatherOpt c (.other :: ancs) e
  | .block ss => esGatherList c (.other :: ancs) ss
  | .exportDefault d => esGather c (.other :: ancs) d
  | _ => .empty

def esGatherList (c : String) (ancs : List Frame) : List Ast → ESAcc
  | [] => .empty
  | a :: rest => (esGather c ancs a).comp (esGatherList c ancs rest)

def esGatherOpt (c : String) (ancs : List Frame) : Option Ast → ESAcc
  | none => .empty
  | some a => esGather c ancs a

def esGatherOptList (c : String) (ancs : List Frame) : List (Option Ast) → ESAcc
  | [] => .empty
  | a :: rest => (esGatherOpt c ancs a).comp (esGatherOptList c ancs rest)
end

mutual
theorem walk_es : ∀ (a : Ast) (c : String) (st : St) (ancs : List Frame),
    (walk c st ancs a).elements = st.elements ++ (esGather c ancs a).elements ∧
    (walk c st ancs a).states = st.states ++ (esGather c ancs a).states
  | .ident _, c, st, ancs => by simp [walk, esGather, ESAcc.empty]
  | .strLit _, c, st, ancs => by simp [walk, esGather, ESAcc.empty]
  | .numLit _, c, st, ancs => by simp [walk, esGather, ESAcc.empty]
  | .boolLit _, c, st, ancs => by simp [walk, esGather, ESAcc.empty]
  | .nullLit, c, st, ancs => by simp [walk, esGather, ESAcc.empty]
  | .member o p, c, st, ancs => by
    have ho := walk_es o c st (.other :: ancs)
    have hp := walk_es p c (walk c st (.other :: ancs) o) (.other :: ancs)
    simp [walk, esGather, ESAcc.comp, ho.1, ho.2, hp.1, hp.2]
  | .call callee args, c, st, ancs => by
    have hc := walk_es callee c (callVisitor c ancs callee args st) (.other :: ancs)
    have ha := walkList_es args c
      (walk c (callVisitor c ancs callee args st) (.other :: ancs) callee)
      (.other :: ancs)
    simp [walk, esGather, ESAcc.comp, ha.1, ha.2, hc.1, hc.2,
      callVisitor_elements, callVisitor_states]
  | .spreadElem e, c, st, ancs => by
    have h := walk_es e c st (.other :: ancs)
    simp [walk, esGather, h.1, h.2]
  | .arrow _ body, c, st, ancs => by
    have h := walk_es body c st (.funcLike :: ancs)
    simp [walk, esGather, h.1, h.2]
  | .fnExpr _ _ body, c, st, ancs => by
    have h := walk_es body c st (.funcLike :: ancs)
    simp [walk, esGather, h.1, h.2]
  | .arrayLit es, c, st, ancs => by
    have h := walkOptList_es es c st (.other :: ancs)
    simp [walk, esGather, h.1, h.2]
  | .tsAs e, c, st, ancs => by
    have h := walk_es e c st (.other :: ancs)
    simp [walk, esGather, h.1, h.2]
  | .jsxElt name attrs children, c, st, ancs => by
    have h1 := walkList_es attrs c (jsxVisitor c ancs name attrs children st)
      (.other :: .other :: ancs)
    have h2 := walkList_es children c
      (walkList c (jsxVisitor c ancs name attrs children st)
        (.other :: .other :: ancs) attrs) (.other :: ancs)
    simp [walk, esGather, ESAcc.comp, h1.1, h1.2, h2.1, h2.2,
      jsxVisitor_elements, jsxVisitor_states]
  | .jsxAttr _ v, c, st, ancs => by
    have h := walkOpt_es v c st (.other :: ancs)
    simp [walk, esGather, h.1, h.2]
  | .jsxSpreadAttr e, c, st, ancs => by
    have h := walk_es e c st (.other :: ancs)
    simp [walk, esGather, h.1, h.2]
  | .jsxText _, c, st, ancs => by simp [walk, esGather, ESAcc.empty]
  | .jsxExprContainer e, c, st, ancs => by
    have h := walkOpt_es e c st (.other :: ancs)
    simp [walk, esGather, h.1, h.2]
  | .jsxFrag cs, c, st, ancs => by
    have h := walkList_es cs c st (.other :: ancs)
    simp [walk, esGather, h.1, h.2]
  | .exprStmt e, c, st, ancs => by
    have h := walk_es e c st (.other :: ancs)
    simp [walk, esGather, h.1, h.2]
  | .varDecl ds, c, st, ancs => by
    have h := walkList_es ds c st (.other :: ancs)
    simp [walk, esGather, h.1, h.2]
  | .varDtor p init, c, st, ancs => by
    have h := walkOpt_es init c (dtorVisitor c ancs p init st)
      (.varDtor (dtorFrame p) :: ancs)
    simp [walk, esGather, ESAcc.comp, h.1, h.2, dtorVisitor_elements,
      dtorVisitor_states]
  | .funcDecl id params body, c, st, ancs => by
    have h := walk_es body c (funcDeclVisitor c id params st) (.funcDecl id :: ancs)
    simp [walk, esGather, h.1, h.2, funcDeclVisitor_elements, funcDeclVisitor_states]
  | .ret e, c, st, ancs => by
    have h := walkOpt_es e c st (.other :: ancs)
    simp [walk, esGather, h.1, h.2]
  | .block ss, c, st, ancs => by
    have h := walkList_es ss c st (.other :: ancs)
    simp [walk, esGather, h.1, h.2]
  | .exportDefault d, c, st, ancs => by
    have h := walk_es d c st (.other :: ancs)
    simp [walk, esGather, h.1, h.2]

theorem walkList_es : ∀ (l : List Ast) (c : String) (st : St) (ancs : List Frame),
    (walkList c st ancs l).elements = st.elements ++ (esGatherList c ancs l).elements ∧
    (walkList c st ancs l).states = st.states ++ (esGatherList c ancs l).states
  | [], c, st, ancs => by simp [walkList, esGatherList, ESAcc.empty]
  | a :: rest, c, st, ancs => by
    have h1 := walk_es a c st ancs
    have h2 := walkList_es rest c (walk c st ancs a) ancs
    simp [walkList, esGatherList, ESAcc.comp, h1.1, h1.2, h2.1, h2.2]

theorem walkOpt_es : ∀ (o : Option Ast) (c : String) (st : St) (ancs : List Frame),
    (walkOpt c st ancs o).elements = st.elements ++ (esGatherOpt c ancs o).elements ∧
    (walkOpt c st ancs o).states = st.states ++ (esGatherOpt c ancs o).states
  | none, c, st, ancs => by simp [walkOpt, esGatherOpt, ESAcc.empty]
  | some a, c, st, ancs => by
    have h := walk_es a c st ancs
    simp [walkOpt, esGatherOpt, h.1, h.2]

theorem walkOptList_es : ∀ (l : List (Option Ast)) (c : String) (st : St)
    (ancs : List Frame),
    (walkOptList c st ancs l).elements =
      st.elements ++ (esGatherOptList c ancs l).elements ∧
    (walkOptList c st ancs l).states =
      st.states ++ (esGatherOptList c ancs l).states
  | [], c, st, ancs => by simp [walkOptList, esGatherOptList, ESAcc.empty]
  | a :: rest, c, st, ancs => by
    have h1 := walkOpt_es a c st ancs
    have h2 := walkOptList_es rest c (walkOpt c st ancs a) ancs
    simp [walkOptList, esGatherOptList, ESAcc.comp, h1.1, h1.2, h2.1, h2.2]
end

/-! ### Pure characterization of apis / usesFetch / usesAxios

`apiSpec` renders which network calls pass 2 records: only the calls
found by the sub-walk of the first (callback) argument's body of an
in-scope side-effect registration. No other node kind contributes, so
fetch/axios calls outside an effect callback body never appear. -/

/-- Network-call contribution of one visited call expression: the
effect-body sub-walk's findings when the call is an in-scope
`useEffect`/`React.useEffect` whose first argument is a function,
nothing otherwise. -/
def effContrib (c : String) (ancs : List Frame) (callee : Ast)
    (args : List Ast) : ApiAcc :=
  if isInsideComponent ancs c && isUseEffectCallee callee then
    match args.head? with
    | some (.arrow _ body) => apiGatherList (effectStmts body)
    | some (.fnExpr _ _ body) => apiGatherList (effectStmts body)
    | _ => .empty
  else .empty

theorem callVisitor_api (c : String) (ancs : List Frame) (callee : Ast)
    (args : List Ast) (st : St) :
    (callVisitor c ancs callee args st).apis =
      st.apis ++ (effContrib c ancs callee args).apis ∧
    (callVisitor c ancs callee args st).usesFetch =
      (st.usesFetch || (effContrib c ancs callee args).usesFetch) ∧
    (callVisitor c ancs callee args st).usesAxios =
      (st.usesAxios || (effContrib c ancs callee args).usesAxios) := by
  unfold callVisitor setterStep useEffectStep effContrib
  repeat' split <;>
    (try simp_all [scanApisList_eq, mergeApi, ApiAcc.empty])

theorem jsxVisitor_api (c : String) (ancs : List Frame) (name : JSXName)
    (attrs children : List Ast) (st : St) :
    (jsxVisitor c ancs name attrs children st).apis = st.apis ∧
    (jsxVisitor c ancs name attrs children st).usesFetch = st.usesFetch ∧
    (jsxVisitor c ancs name attrs children st).usesAxios = st.usesAxios := by
  unfold jsxVisitor; split <;> simp

theorem dtorVisitor_api (c : String) (ancs : List Frame) (p : Pat)
    (init : Option Ast) (st : St) :
    (dtorVisitor c ancs p init st).apis = st.apis ∧
    (dtorVisitor c ancs p init st).usesFetch = st.usesFetch ∧
    (dtorVisitor c ancs p init st).usesAxios = st.usesAxios := by
  unfold dtorVisitor
  repeat' split <;> (try simp)

theorem funcDeclVisitor_api (c : String) (id : Option String)
    (params : List Pat) (st : St) :
    (funcDeclVisitor c id params st).apis = st.apis ∧
    (funcDeclVisitor c id params st).usesFetch = st.usesFetch ∧
    (funcDeclVisitor c id params st).usesAxios = st.usesAxios := by
  unfold funcDeclVisitor; split <;> simp

mutual
/-- Network-call contribution of a subtree in pass 2, mirroring the
walk's frames: contributions arise only at in-scope effect
registrations, from the sub-walk of the callback body. -/
def apiSpec (c : String) (ancs : List Frame) : Ast → ApiAcc
  | .member o p =>
    (apiSpec c (.other :: ancs) o).comp (apiSpec c (.other :: ancs) p)
  | .call callee args =>
    (effContrib c ancs callee args).comp
      ((apiSpec c (.other :: ancs) callee).comp (apiSpecList c (.other :: ancs) args))
  | .spreadElem e => apiSpec c (.other :: ancs) e
  | .arrow _ body => apiSpec c (.funcLike :: ancs) body
  | .fnExpr _ _ body => apiSpec c (.funcLike :: ancs) body
  | .arrayLit es => apiSpecOptList c (.other :: ancs) es
  | .tsAs e => apiSpec c (.other :: ancs) e
  | .jsxElt _ attrs children =>
    (apiSpecList c (.other :: .other :: ancs) attrs).comp
      (apiSpecList c (.other :: ancs) children)
  | .jsxAttr _ v => apiSpecOpt c (.other :: ancs) v
  | .jsxSpreadAttr e => apiSpec c (.other :: ancs) e
  | .jsxExprContainer e => apiSpecOpt c (.other :: ancs) e
  | .jsxFrag cs => apiSpecList c (.other :: ancs) cs
  | .exprStmt e => apiSpec c (.other :: ancs) e
  | .varDecl ds => apiSpecList c (.other :: ancs) ds
  | .varDtor p init =>
    apiSpecOpt c (.varDtor (dtorFrame p) :: ancs) init
  | .funcDecl id _ body => apiSpec c (.funcDecl id :: ancs) body
  | .ret e => apiSpecOpt c (.other :: ancs) e
  | .block ss => apiSpecList c (.other :: ancs) ss
  | .exportDefault d => apiSpec c (.other :: ancs) d
  | _ => .empty

def apiSpecList (c : String) (ancs : List Frame) : List Ast → ApiAcc
  | [] => .empty
  | a :: rest => (apiSpec c ancs a).comp (apiSpecList c ancs rest)

def apiSpecOpt (c : String) (ancs : List Frame) : Option Ast → ApiAcc
  | none => .empty
  | some a => apiSpec c ancs a

def apiSpecOptList (c : String) (ancs : List Frame) : List (Option Ast) → ApiAcc
  | [] => .empty
  | a :: rest => (apiSpecOpt c ancs a).comp (apiSpecOptList c ancs rest)
end

mutual
theorem walk_api : ∀ (a : Ast) (c : String) (st : St) (ancs : List Frame),
    (walk c st ancs a).apis = st.apis ++ (apiSpec c ancs a).apis ∧
    (walk c st ancs a).usesFetch = (st.usesFetch || (apiSpec c ancs a).usesFetch) ∧
    (walk c st ancs a).usesAxios = (st.usesAxios || (apiSpec c ancs a).usesAxios)
  | .ident _, c, st, ancs => by simp [walk, apiSpec, ApiAcc.empty]
  | .strLit _, c, st, ancs => by simp [walk, apiSpec, ApiAcc.empty]
  | .numLit _, c, st, ancs => by simp [walk, apiSpec, ApiAcc.empty]
  | .boolLit _, c, st, ancs => by simp [walk, apiSpec, ApiAcc.empty]
  | .nullLit, c, st, ancs => by simp [walk, apiSpec, ApiAcc.empty]
  | .member o p, c, st, ancs => by
    have ho := walk_api o c st (.other :: ancs)
    have hp := walk_api p c (walk c st (.other :: ancs) o) (.other :: ancs)
    simp [walk, apiSpec, ApiAcc.comp, ho.1, ho.2.1, ho.2.2, hp.1, hp.2.1, hp.2.2,
      Bool.or_assoc]
  | .call callee args, c, st, ancs => by
    have hv := callVisitor_api c ancs callee args st
    have hc := walk_api callee c (callVisitor c ancs callee args st) (.other :: ancs)
    have ha := walkList_api args c
      (walk c (callVisitor c ancs callee args st) (.other :: ancs) callee)
      (.other :: ancs)
    simp [walk, apiSpec, ApiAcc.comp, ha.1, ha.2.1, ha.2.2, hc.1, hc.2.1, hc.2.2,
      hv.1, hv.2.1, hv.2.2, Bool.or_assoc]
  | .spreadElem e, c, st, ancs => by
    have h := walk_api e c st (.other :: ancs)
    simp [walk, apiSpec, h.1, h.2.1, h.2.2]
  | .arrow _ body, c, st, ancs => by
    have h := walk_api body c st (.funcLike :: ancs)
    simp [walk, apiSpec, h.1, h.2.1, h.2.2]
  | .fnExpr _ _ body, c, st, ancs => by
    have h := walk_api body c st (.funcLike :: ancs)
    simp [walk, apiSpec, h.1, h.2.1, h.2.2]
  | .arrayLit es, c, st, ancs => by
    have h := walkOptList_api es c st (.other :: ancs)
    simp [walk, apiSpec, h.1, h.2.1, h.2.2]
  | .tsAs e, c, st, ancs => by
    have h := walk_api e c st (.other :: ancs)
    simp [walk, apiSpec, h.1, h.2.1, h.2.2]
  | .jsxElt name attrs children, c, st, ancs => by
    have hv := jsxVisitor_api c ancs name attrs children st
    have h1 := walkList_api attrs c (jsxVisitor c ancs name attrs children st)
      (.other :: .other :: ancs)
    have h2 := walkList_api children c
      (walkList c (jsxVisitor c ancs name attrs children st)
        (.other :: .other :: ancs) attrs) (.other :: ancs)
    simp [walk, apiSpec, ApiAcc.comp, h1.1, h1.2.1, h1.2.2, h2.1, h2.2.1, h2.2.2,
      hv.1, hv.2.1, hv.2.2, Bool.or_assoc]
  | .jsxAttr _ v, c, st, ancs => by
    have h := walkOpt_api v c st (.other :: ancs)
    simp [walk, apiSpec, h.1, h.2.1, h.2.2]
  | .jsxSpreadAttr e, c, st, ancs => by
    have h := walk_api e c st (.other :: ancs)
    simp [walk, apiSpec, h.1, h.2.1, h.2.2]
  | .jsxText _, c, st, ancs => by simp [walk, apiSpec, ApiAcc.empty]
  | .jsxExprContainer e, c, st, ancs => by
    have h := walkOpt_api e c st (.other :: ancs)
    simp [walk, apiSpec, h.1, h.2.1, h.2.2]
  | .jsxFrag cs, c, st, ancs => by
    have h := walkList_api cs c st (.other :: ancs)
    simp [walk, apiSpec, h.1, h.2.1, h.2.2]
  | .exprStmt e, c, st, ancs => by
    have h := walk_api e c st (.other :: ancs)
    simp [walk, apiSpec, h.1, h.2.1, h.2.2]
  | .varDecl ds, c, st, ancs => by
    have h := walkList_api ds c st (.other :: ancs)
    simp [walk, apiSpec, h.1, h.2.1, h.2.2]
  | .varDtor p init, c, st, ancs => by
    have h := walkOpt_api init c (dtorVisitor c ancs p init st)
      (.varDtor (dtorFrame p) :: ancs)
    have hv := dtorVisitor_api c ancs p init st
    simp [walk, apiSpec, h.1, h.2.1, h.2.2, hv.1, hv.2.1, hv.2.2]
  | .funcDecl id params body, c, st, ancs => by
    have hv := funcDeclVisitor_api c id params st
    have h := walk_api body c (funcDeclVisitor c id params st) (.funcDecl id :: ancs)
    simp [walk, apiSpec, h.1, h.2.1, h.2.2, hv.1, hv.2.1, hv.2.2]
  | .ret e, c, st, ancs => by
    have h := walkOpt_api e c st (.other :: ancs)
    simp [walk, apiSpec, h.1, h.2.1, h.2.2]
  | .block ss, c, st, ancs => by
    have h := walkList_api ss c st (.other :: ancs)
    simp [walk, apiSpec, h.1, h.2.1, h.2.2]
  | .exportDefault d, c, st, ancs => by
    have h := walk_api d c st (.other :: ancs)
    simp [walk, apiSpec, h.1, h.2.1, h.2.2]

theorem walkList_api : ∀ (l : List Ast) (c : String) (st : St) (ancs : List Frame),
    (walkList c st ancs l).apis = st.apis ++ (apiSpecList c ancs l).apis ∧
    (walkList c st ancs l).usesFetch =
      (st.usesFetch || (apiSpecList c ancs l).usesFetch) ∧
    (walkList c st ancs l).usesAxios =
      (st.usesAxios || (apiSpecList c ancs l).usesAxios)
  | [], c, st, ancs => by simp [walkList, apiSpecList, ApiAcc.empty]
  | a :: rest, c, st, ancs => by
    have h1 := walk_api a c st ancs
    have h2 := walkList_api rest c (walk c st ancs a) ancs
    simp [walkList, apiSpecList, ApiAcc.comp, h1.1, h1.2.1, h1.2.2, h2.1, h2.2.1,
      h2.2.2, Bool.or_assoc]

theorem walkOpt_api : ∀ (o : Option Ast) (c : String) (st : St) (ancs : List Frame),
    (walkOpt c st ancs o).apis = st.apis ++ (apiSpecOpt c ancs o).apis ∧
    (walkOpt c st ancs o).usesFetch =
      (st.usesFetch || (apiSpecOpt c ancs o).usesFetch) ∧
    (walkOpt c st ancs o).usesAxios =
      (st.usesAxios || (apiSpecOpt c ancs o).usesAxios)
  | none, c, st, ancs => by simp [walkOpt, apiSpecOpt, ApiAcc.empty]
  | some a, c, st, ancs => by
    have h := walk_api a c st ancs
    simp [walkOpt, apiSpecOpt, h.1, h.2.1, h.2.2]

theorem walkOptList_api : ∀ (l : List (Option Ast)) (c : String) (st : St)
    (ancs : List Frame),
    (walkOptList c st ancs l).apis = st.apis ++ (apiSpecOptList c ancs l).apis ∧
    (walkOptList c st ancs l).usesFetch =
      (st.usesFetch || (apiSpecOptList c ancs l).usesFetch) ∧
    (walkOptList c st ancs l).usesAxios =
      (st.usesAxios || (apiSpecOptList c ancs l).usesAxios)
  | [], c, st, ancs => by simp [walkOptList, apiSpecOptList, ApiAcc.empty]
  | a :: rest, c, st, ancs => by
    have h1 := walkOpt_api a c st ancs
    have h2 := walkOptList_api rest c (walkOpt c st ancs a) ancs
    simp [walkOptList, apiSpecOptList, ApiAcc.comp, h1.1, h1.2.1, h1.2.2, h2.1,
      h2.2.1, h2.2.2, Bool.or_assoc]
end

/-! ### The handler-to-setter map only ever grows -/

/-- The setter list recorded under a handler name (empty if absent). -/
def lookupList (m : List (String × List String)) (k : String) : List String :=
  (lookupAssoc m k).getD []

/-- `m` is contained in `m'`: every recorded setter stays recorded. -/
def SubMap (m m' : List (String × List String)) : Prop :=
  ∀ k v, v ∈ lookupList m k → v ∈ lookupList m' k

theorem SubMap.rfl (m : List (String × List String)) : SubMap m m :=
  fun _ _ h => h

theorem SubMap.trans {a b c : List (String × List String)}
    (h1 : SubMap a b) (h2 : SubMap b c) : SubMap a c :=
  fun k v h => h2 k v (h1 k v h)

theorem lookupAssoc_append {α : Type} (l1 l2 : List (String × α)) (k : String) :
    lookupAssoc (l1 ++ l2) k = (lookupAssoc l1 k).or (lookupAssoc l2 k) := by
  induction l1 with
  | nil => simp [lookupAssoc]
  | cons hd tl ih =>
    obtain ⟨k', v⟩ := hd
    by_cases h : k' = k <;> simp [lookupAssoc, h, ih]

theorem lookupAssoc_setAssoc_self {α : Type} (l : List (String × α)) (k : String)
    (v : α) : lookupAssoc (setAssoc l k v) k = some v := by
  induction l with
  | nil => simp [setAssoc, lookupAssoc]
  | cons hd tl ih =>
    obtain ⟨k', v'⟩ := hd
    by_cases h : k' = k <;> simp [setAssoc, lookupAssoc, h, ih]

theorem lookupAssoc_setAssoc_ne {α : Type} (l : List (String × α)) (k k' : String)
    (v : α) (h : k ≠ k') :
    lookupAssoc (setAssoc l k v) k' = lookupAssoc l k' := by
  induction l with
  | nil => simp [setAssoc, lookupAssoc, h]
  | cons hd tl ih =>
    obtain ⟨k'', v''⟩ := hd
    by_cases h2 : k'' = k
    · subst h2; simp [setAssoc, lookupAssoc, h]
    · by_cases h3 : k'' = k' <;> simp [setAssoc, lookupAssoc, h2, h3, ih, Ne.symm h]

theorem addSetter_subMap (m : List (String × List String)) (k v : String) :
    SubMap m (addSetter m k v) := by
  intro k' v' hmem
  unfold addSetter
  cases hk : lookupAssoc m k with
  | none =>
    simp only [lookupList, lookupAssoc_append]
    cases hk' : lookupAssoc m k' with
    | none => simp [lookupList, hk'] at hmem
    | some l => simpa [lookupList, hk'] using hmem
  | some l =>
    by_cases h : k = k'
    · subst h
      simp only [lookupList, lookupAssoc_setAssoc_self]
      simp [lookupList, hk] at hmem
      simp [List.mem_append, hmem]
    · simpa [lookupList, lookupAssoc_setAssoc_ne m k k' _ h] using hmem

theorem addSetter_mem (m : List (String × List String)) (k v : String) :
    v ∈ lookupList (addSetter m k v) k := by
  unfold addSetter
  cases hk : lookupAssoc m k with
  | none => simp [lookupList, lookupAssoc_append, hk, lookupAssoc]
  | some l => simp [lookupList, lookupAssoc_setAssoc_self]

theorem useEffectStep_states (callee : Ast) (args : List Ast) (st : St) :
    (useEffectStep callee args st).states = st.states := by
  unfold useEffectStep
  repeat' split <;> (try simp_all [scanApisList_eq, mergeApi])

theorem setterStep_mem (ancs : List Frame) (s n : String) (st1 : St)
    (hsetter : (st1.states.find? (fun t => t.setter = s)).isSome = true)
    (hname : handlerNameOf ancs = some n) :
    s ∈ lookupList (setterStep ancs (.ident s) st1).eventToSetterMap n := by
  simp only [setterStep]
  rw [hsetter, hname]
  simp [addSetter_mem]

theorem useEffectStep_map (callee : Ast) (args : List Ast) (st : St) :
    (useEffectStep callee args st).eventToSetterMap = st.eventToSetterMap := by
  unfold useEffectStep
  repeat' split <;> (try simp_all [scanApisList_eq, mergeApi]) <;> (try rfl)

theorem addSetterJs_agree (m : List (String × List String)) (k v : String)
    (m' : List (String × List String)) (h : addSetterJs m k v = some m') :
    m' = addSetter m k v := by
  unfold addSetterJs at h
  unfold addSetter
  cases hl : lookupAssoc m k with
  | some l =>
    rw [hl] at h
    simp at h
    simp [h.symm]
  | none =>
    rw [hl] at h
    by_cases hp : k ∈ objectProtoKeys <;> simp [hp] at h
    simp [h.symm]

theorem setterStepJs_agree (ancs : List Frame) (callee : Ast) (st1 st' : St)
    (h : setterStepJs ancs callee st1 = some st') :
    st' = setterStep ancs callee st1 := by
  cases callee <;>
    simp only [setterStepJs, setterStep] at h ⊢ <;>
    (try (exact (Option.some.inj h).symm))
  case ident s =>
    by_cases hf : ((st1.states.find? (fun t => t.setter = s)).isSome) = true
    · rw [hf] at h ⊢
      simp only [if_true] at h ⊢
      cases hn : handlerNameOf ancs with
      | none =>
        rw [hn] at h
        exact (Option.some.inj h).symm
      | some n =>
        rw [hn] at h
        dsimp only [] at h ⊢
        cases hm : addSetterJs st1.eventToSetterMap n s with
        | none =>
          rw [hm] at h
          exact Option.noConfusion h
        | some m =>
          rw [hm] at h
          rw [← addSetterJs_agree st1.eventToSetterMap n s m hm]
          exact (Option.some.inj h).symm
    · simp only [Bool.not_eq_true] at hf
      rw [hf] at h ⊢
      simp only [Bool.false_eq_true, if_false] at h ⊢
      exact (Option.some.inj h).symm

theorem callVisitorJs_agree (c : String) (ancs : List Frame) (callee : Ast)
    (args : List Ast) (st st' : St)
    (h : callVisitorJs c ancs callee args st = some st') :
    st' = callVisitor c ancs callee args st := by
  unfold callVisitorJs at h
  unfold callVisitor
  split at h
  · rename_i hin
    rw [if_pos hin]
    exact setterStepJs_agree ancs callee (useEffectStep callee args st) st' h
  · rename_i hin
    rw [if_neg hin]
    exact (Option.some.inj h).symm

theorem setterStepJs_entry (ancs : List Frame) (s n : String) (st1 : St)
    (hsetter : (st1.states.find? (fun t => t.setter = s)).isSome = true)
    (hname : handlerNameOf ancs = some n)
    (hproto : n ∉ objectProtoKeys) :
    setterStepJs ancs (.ident s) st1 = some (setterStep ancs (.ident s) st1) := by
  simp only [setterStepJs, setterStep]
  rw [hsetter, hname]
  unfold addSetterJs addSetter
  cases hl : lookupAssoc st1.eventToSetterMap n <;> simp [hl, hproto]

theorem setterStepJs_typeError (ancs : List Frame) (s n : String) (st1 : St)
    (hsetter : (st1.states.find? (fun t => t.setter = s)).isSome = true)
    (hname : handlerNameOf ancs = some n)
    (hproto : n ∈ objectProtoKeys)
    (hown : lookupAssoc st1.eventToSetterMap n = none) :
    setterStepJs ancs (.ident s) st1 = none := by
  simp only [setterStepJs]
  rw [hsetter, hname]
  unfold addSetterJs
  simp [hown, hproto]

theorem jsxVisitor_map (c : String) (ancs : List Frame) (name : JSXName)
    (attrs children : List Ast) (st : St) :
    (jsxVisitor c ancs name attrs children st).eventToSetterMap =
      st.eventToSetterMap := by
  unfold jsxVisitor; split <;> simp

theorem dtorVisitor_map (c : String) (ancs : List Frame) (p : Pat)
    (init : Option Ast) (st : St) :
    (dtorVisitor c ancs p init st).eventToSetterMap = st.eventToSetterMap := by
  unfold dtorVisitor
  repeat' split <;> (try simp)

theorem funcDeclVisitor_map (c : String) (id : Option String)
    (params : List Pat) (st : St) :
    (funcDeclVisitor c id params st).eventToSetterMap = st.eventToSetterMap := by
  unfold funcDeclVisitor; split <;> simp

theorem callVisitor_map (c : String) (ancs : List Frame) (callee : Ast)
    (args : List Ast) (st : St) :
    SubMap st.eventToSetterMap (callVisitor c ancs callee args st).eventToSetterMap := by
  unfold callVisitor setterStep useEffectStep
  repeat' split <;>
    (try simp_all [scanApisList_eq, mergeApi]) <;>
    (first
      | exact SubMap.rfl _
      | exact addSetter_subMap _ _ _
      | skip)

mutual
theorem walk_map : ∀ (a : Ast) (c : String) (st : St) (ancs : List Frame),
    SubMap st.eventToSetterMap (walk c st ancs a).eventToSetterMap
  | .ident _, c, st, ancs => by rw [walk]; exact SubMap.rfl _
  | .strLit _, c, st, ancs => by rw [walk]; exact SubMap.rfl _
  | .numLit _, c, st, ancs => by rw [walk]; exact SubMap.rfl _
  | .boolLit _, c, st, ancs => by rw [walk]; exact SubMap.rfl _
  | .nullLit, c, st, ancs => by rw [walk]; exact SubMap.rfl _
  | .member o p, c, st, ancs => by
    rw [walk]
    exact (walk_map o c st _).trans (walk_map p c _ _)
  | .call callee args, c, st, ancs => by
    rw [walk]
    exact ((callVisitor_map c ancs callee args st).trans
      (walk_map callee c _ _)).trans (walkList_map args c _ _)
  | .spreadElem e, c, st, ancs => by rw [walk]; exact walk_map e c st _
  | .arrow _ body, c, st, ancs => by rw [walk]; exact walk_map body c st _
  | .fnExpr _ _ body, c, st, ancs => by rw [walk]; exact walk_map body c st _
  | .arrayLit es, c, st, ancs => by rw [walk]; exact walkOptList_map es c st _
  | .tsAs e, c, st, ancs => by rw [walk]; exact walk_map e c st _
  | .jsxElt name attrs children, c, st, ancs => by
    rw [walk]
    refine SubMap.trans (SubMap.trans ?_ (walkList_map attrs c _ _))
      (walkList_map children c _ _)
    rw [jsxVisitor_map]
    exact SubMap.rfl _
  | .jsxAttr _ v, c, st, ancs => by rw [walk]; exact walkOpt_map v c st _
  | .jsxSpreadAttr e, c, st, ancs => by rw [walk]; exact walk_map e c st _
  | .jsxText _, c, st, ancs => by rw [walk]; exact SubMap.rfl _
  | .jsxExprContainer e, c, st, ancs => by rw [walk]; exact walkOpt_map e c st _
  | .jsxFrag cs, c, st, ancs => by rw [walk]; exact walkList_map cs c st _
  | .exprStmt e, c, st, ancs => by rw [walk]; exact walk_map e c st _
  | .varDecl ds, c, st, ancs => by rw [walk]; exact walkList_map ds c st _
  | .varDtor p init, c, st, ancs => by
    rw [walk]
    refine SubMap.trans ?_ (walkOpt_map init c _ _)
    rw [dtorVisitor_map]
    exact SubMap.rfl _
  | .funcDecl id params body, c, st, ancs => by
    rw [walk]
    refine SubMap.trans ?_ (walk_map body c _ _)
    rw [funcDeclVisitor_map]
    exact SubMap.rfl _
  | .ret e, c, st, ancs => by rw [walk]; exact walkOpt_map e c st _
  | .block ss, c, st, ancs => by rw [walk]; exact walkList_map ss c st _
  | .exportDefault d, c, st, ancs => by rw [walk]; exact walk_map d c st _

theorem walkList_map : ∀ (l : List Ast) (c : String) (st : St) (ancs : List Frame),
    SubMap st.eventToSetterMap (walkList c st ancs l).eventToSetterMap
  | [], c, st, ancs => by rw [walkList]; exact SubMap.rfl _
  | a :: rest, c, st, ancs => by
    rw [walkList]
    exact (walk_map a c st ancs).trans (walkList_map rest c _ _)

theorem walkOpt_map : ∀ (o : Option Ast) (c : String) (st : St) (ancs : List Frame),
    SubMap st.eventToSetterMap (walkOpt c st ancs o).eventToSetterMap
  | none, c, st, ancs => by rw [walkOpt]; exact SubMap.rfl _
  | some a, c, st, ancs => by rw [walkOpt]; exact walk_map a c st ancs

theorem walkOptList_map : ∀ (l : List (Option Ast)) (c : String) (st : St)
    (ancs : List Frame),
    SubMap st.eventToSetterMap (walkOptList c st ancs l).eventToSetterMap
  | [], c, st, ancs => by rw [walkOptList]; exact SubMap.rfl _
  | a :: rest, c, st, ancs => by
    rw [walkOptList]
    exact (walkOpt_map a c st ancs).trans (walkOptList_map rest c _ _)
end

/-! ### Files with no binding of a given name are invisible to pass 2 -/

/-- A frame does not mention the name `a` (as a function declaration's
name or a declarator's bound identifier). -/
def frameClean (a : String) : Frame → Bool
  | .funcDecl (some n) => !(n == a)
  | .varDtor (some n) => !(n == a)
  | _ => true

/-- No ancestor frame mentions the name `a`. -/
def framesClean (a : String) (ancs : List Frame) : Bool :=
  ancs.all (frameClean a)

mutual
/-- No function declaration in the subtree is named `a` and no variable
declarator in it binds the identifier `a`. -/
def cleanAst (a : String) : Ast → Bool
  | .member o p => cleanAst a o && cleanAst a p
  | .call callee args => cleanAst a callee && cleanList a args
  | .spreadElem e => cleanAst a e
  | .arrow _ b => cleanAst a b
  | .fnExpr _ _ b => cleanAst a b
  | .arrayLit es => cleanOptList a es
  | .tsAs e => cleanAst a e
  | .jsxElt _ attrs children => cleanList a attrs && cleanList a children
  | .jsxAttr _ v => cleanOpt a v
  | .jsxSpreadAttr e => cleanAst a e
  | .jsxExprContainer e => cleanOpt a e
  | .jsxFrag cs => cleanList a cs
  | .exprStmt e => cleanAst a e
  | .varDecl ds => cleanList a ds
  | .varDtor p init => frameClean a (.varDtor (dtorFrame p)) && cleanOpt a init
  | .funcDecl id _ b => frameClean a (.funcDecl id) && cleanAst a b
  | .ret e => cleanOpt a e
  | .block ss => cleanList a ss
  | .exportDefault d => cleanAst a d
  | _ => true

def cleanList (a : String) : List Ast → Bool
  | [] => true
  | x :: rest => cleanAst a x && cleanList a rest

def cleanOpt (a : String) : Option Ast → Bool
  | none => true
  | some x => cleanAst a x

def cleanOptList (a : String) : List (Option Ast) → Bool
  | [] => true
  | x :: rest => cleanOpt a x && cleanOptList a rest
end

theorem gfp_clean (a : String) : ∀ (ancs : List Frame),
    framesClean a ancs = true →
    (match getFunctionParent ancs with
     | some (.funcDecl (some n), _) => n == a
     | _ => false) = false := by
  intro ancs
  induction ancs with
  | nil => intro _; rfl
  | cons f rest ih =>
    intro h
    simp only [framesClean, List.all_cons, Bool.and_eq_true] at h
    obtain ⟨hf, hrest⟩ := h
    cases f with
    | funcDecl id =>
      cases id with
      | none => simp [getFunctionParent]
      | some n =>
        simp only [frameClean, Bool.not_eq_true'] at hf
        simp [getFunctionParent, hf]
    | funcLike => simp [getFunctionParent]
    | varDtor idn => simpa [getFunctionParent] using ih hrest
    | other => simpa [getFunctionParent] using ih hrest

theorem fvd_clean (a : String) : ∀ (ancs : List Frame),
    framesClean a ancs = true →
    (match findVarDtor ancs with
     | some (some n) => n == a
     | _ => false) = false := by
  intro ancs
  induction ancs with
  | nil => intro _; rfl
  | cons f rest ih =>
    intro h
    simp only [framesClean, List.all_cons, Bool.and_eq_true] at h
    obtain ⟨hf, hrest⟩ := h
    cases f with
    | funcDecl id => simpa [findVarDtor] using ih hrest
    | funcLike => simpa [findVarDtor] using ih hrest
    | varDtor idn =>
      cases idn with
      | none => simp [findVarDtor]
      | some n =>
        simp only [frameClean, Bool.not_eq_true'] at hf
        simp [findVarDtor, hf]
    | other => simpa [findVarDtor] using ih hrest

/-- With no frame naming `a`, the scope filter rejects every node. -/
theorem isInside_clean (a : String) (ancs : List Frame)
    (h : framesClean a ancs = true) : isInsideComponent ancs a = false := by
  unfold isInsideComponent
  rw [gfp_clean a ancs h, fvd_clean a ancs h]
  rfl

theorem framesClean_cons (a : String) (f : Frame) (ancs : List Frame) :
    framesClean a (f :: ancs) = (frameClean a f && framesClean a ancs) := by
  simp [framesClean]

theorem callVisitor_clean (a : String) (ancs : List Frame) (callee : Ast)
    (args : List Ast) (st : St) (h : framesClean a ancs = true) :
    callVisitor a ancs callee args st = st := by
  unfold callVisitor
  rw [isInside_clean a ancs h]
  simp

theorem jsxVisitor_clean (a : String) (ancs : List Frame) (name : JSXName)
    (attrs children : List Ast) (st : St) (h : framesClean a ancs = true) :
    jsxVisitor a ancs name attrs children st = st := by
  unfold jsxVisitor
  rw [isInside_clean a ancs h]
  simp

theorem dtorVisitor_clean (a : String) (ancs : List Frame) (p : Pat)
    (init : Option Ast) (st : St) (h : framesClean a ancs = true)
    (hp : frameClean a (.varDtor (dtorFrame p)) = true) :
    dtorVisitor a ancs p init st = st := by
  unfold dtorVisitor
  rw [isInside_clean a ancs h]
  simp only [if_false, Bool.false_eq_true]
  repeat' split <;>
    (try rfl) <;>
    simp_all [frameClean, dtorFrame]

theorem funcDeclVisitor_clean (a : String) (id : Option String)
    (params : List Pat) (st : St) (hid : frameClean a (.funcDecl id) = true) :
    funcDeclVisitor a id params st = st := by
  unfold funcDeclVisitor
  cases id with
  | none => simp
  | some n =>
    simp only [frameClean, Bool.not_eq_true'] at hid
    simp only [beq_eq_false_iff_ne, ne_eq] at hid
    simp [Option.some.injEq, hid]

mutual
theorem walk_clean : ∀ (x : Ast) (a : String) (st : St) (ancs : List Frame),
    framesClean a ancs = true → cleanAst a x = true → walk a st ancs x = st
  | .ident _, a, st, ancs => by intro _ _; rw [walk]
  | .strLit _, a, st, ancs => by intro _ _; rw [walk]
  | .numLit _, a, st, ancs => by intro _ _; rw [walk]
  | .boolLit _, a, st, ancs => by intro _ _; rw [walk]
  | .nullLit, a, st, ancs => by intro _ _; rw [walk]
  | .member o p, a, st, ancs => by
    intro h hc
    simp only [cleanAst, Bool.and_eq_true] at hc
    have h' : framesClean a (.other :: ancs) = true := by
      simp [framesClean_cons, frameClean, h]
    rw [walk, walk_clean o a st _ h' hc.1, walk_clean p a st _ h' hc.2]
  | .call callee args, a, st, ancs => by
    intro h hc
    simp only [cleanAst, Bool.and_eq_true] at hc
    have h' : framesClean a (.other :: ancs) = true := by
      simp [framesClean_cons, frameClean, h]
    rw [walk, callVisitor_clean a ancs callee args st h,
      walk_clean callee a st _ h' hc.1, walkList_clean args a st _ h' hc.2]
  | .spreadElem e, a, st, ancs => by
    intro h hc
    have h' : framesClean a (.other :: ancs) = true := by
      simp [framesClean_cons, frameClean, h]
    rw [walk, walk_clean e a st _ h' hc]
  | .arrow _ body, a, st, ancs => by
    intro h hc
    have h' : framesClean a (.funcLike :: ancs) = true := by
      simp [framesClean_cons, frameClean, h]
    rw [walk, walk_clean body a st _ h' hc]
  | .fnExpr _ _ body, a, st, ancs => by
    intro h hc
    have h' : framesClean a (.funcLike :: ancs) = true := by
      simp [framesClean_cons, frameClean, h]
    rw [walk, walk_clean body a st _ h' hc]
  | .arrayLit es, a, st, ancs => by
    intro h hc
    have h' : framesClean a (.other :: ancs) = true := by
      simp [framesClean_cons, frameClean, h]
    rw [walk, walkOptList_clean es a st _ h' hc]
  | .tsAs e, a, st, ancs => by
    intro h hc
    have h' : framesClean a (.other :: ancs) = true := by
      simp [framesClean_cons, frameClean, h]
    rw [walk, walk_clean e a st _ h' hc]
  | .jsxElt name attrs children, a, st, ancs => by
    intro h hc
    simp only [cleanAst, Bool.and_eq_true] at hc
    have h' : framesClean a (.other :: ancs) = true := by
      simp [framesClean_cons, frameClean, h]
    have h'' : framesClean a (.other :: .other :: ancs) = true := by
      simp [framesClean_cons, frameClean, h]
    rw [walk, jsxVisitor_clean a ancs name attrs children st h,
      walkList_clean attrs a st _ h'' hc.1, walkList_clean children a st _ h' hc.2]
  | .jsxAttr _ v, a, st, ancs => by
    intro h hc
    have h' : framesClean a (.other :: ancs) = true := by
      simp [framesClean_cons, frameClean, h]
    rw [walk, walkOpt_clean v a st _ h' hc]
  | .jsxSpreadAttr e, a, st, ancs => by
    intro h hc
    have h' : framesClean a (.other :: ancs) = true := by
      simp [framesClean_cons, frameClean, h]
    rw [walk, walk_clean e a st _ h' hc]
  | .jsxText _, a, st, ancs => by intro _ _; rw [walk]
  | .jsxExprContainer e, a, st, ancs => by
    intro h hc
    have h' : framesClean a (.other :: ancs) = true := by
      simp [framesClean_cons, frameClean, h]
    rw [walk, walkOpt_clean e a st _ h' hc]
  | .jsxFrag cs, a, st, ancs => by
    intro h hc
    have h' : framesClean a (.other :: ancs) = true := by
      simp [framesClean_cons, frameClean, h]
    rw [walk, walkList_clean cs a st _ h' hc]
  | .exprStmt e, a, st, ancs => by
    intro h hc
    have h' : framesClean a (.other :: ancs) = true := by
      simp [framesClean_cons, frameClean, h]
    rw [walk, walk_clean e a st _ h' hc]
  | .varDecl ds, a, st, ancs => by
    intro h hc
    have h' : framesClean a (.other :: ancs) = true := by
      simp [framesClean_cons, frameClean, h]
    rw [walk, walkList_clean ds a st _ h' hc]
  | .varDtor p init, a, st, ancs => by
    intro h hc
    simp only [cleanAst, Bool.and_eq_true] at hc
    have h' : framesClean a (.varDtor (dtorFrame p) :: ancs) = true := by
      simp [framesClean_cons, h, hc.1]
    rw [walk, dtorVisitor_clean a ancs p init st h hc.1,
      walkOpt_clean init a st _ h' hc.2]
  | .funcDecl id params body, a, st, ancs => by
    intro h hc
    simp only [cleanAst, Bool.and_eq_true] at hc
    have h' : framesClean a (.funcDecl id :: ancs) = true := by
      simp [framesClean_cons, h, hc.1]
    rw [walk, funcDeclVisitor_clean a id params st hc.1,
      walk_clean body a st _ h' hc.2]
  | .ret e, a, st, ancs => by
    intro h hc
    have h' : framesClean a (.other :: ancs) = true := by
      simp [framesClean_cons, frameClean, h]
    rw [walk, walkOpt_clean e a st _ h' hc]
  | .block ss, a, st, ancs => by
    intro h hc
    have h' : framesClean a (.other :: ancs) = true := by
      simp [framesClean_cons, frameClean, h]
    rw [walk, walkList_clean ss a st _ h' hc]
  | .exportDefault d, a, st, ancs => by
    intro h hc
    have h' : framesClean a (.other :: ancs) = true := by
      simp [framesClean_cons, frameClean, h]
    rw [walk, walk_clean d a st _ h' hc]

theorem walkList_clean : ∀ (l : List Ast) (a : String) (st : St) (ancs : List Frame),
    framesClean a ancs = true → cleanList a l = true → walkList a st ancs l = st
  | [], a, st, ancs => by intro _ _; rw [walkList]
  | x :: rest, a, st, ancs => by
    intro h hc
    simp only [cleanList, Bool.and_eq_true] at hc
    rw [walkList, walk_clean x a st ancs h hc.1, walkList_clean rest a st ancs h hc.2]

theorem walkOpt_clean : ∀ (o : Option Ast) (a : String) (st : St) (ancs : List Frame),
    framesClean a ancs = true → cleanOpt a o = true → walkOpt a st ancs o = st
  | none, a, st, ancs => by intro _ _; rw [walkOpt]
  | some x, a, st, ancs => by
    intro h hc
    rw [walkOpt, walk_clean x a st ancs h hc]

theorem walkOptList_clean : ∀ (l : List (Option Ast)) (a : String) (st : St)
    (ancs : List Frame),
    framesClean a ancs = true → cleanOptList a l = true → walkOptList a st ancs l = st
  | [], a, st, ancs => by intro _ _; rw [walkOptList]
  | x :: rest, a, st, ancs => by
    intro h hc
    simp only [cleanOptList, Bool.and_eq_true] at hc
    rw [walkOptList, walkOpt_clean x a st ancs h hc.1,
      walkOptList_clean rest a st ancs h hc.2]
end

/-! ### Agreement: on every run that throws no TypeError, the faithful
walk computes exactly what the crash-free projection computes -/

mutual
theorem walkJs_agree : ∀ (x : Ast) (c : String) (st : St) (ancs : List Frame)
    (st' : St), walkJs c st ancs x = some st' → st' = walk c st ancs x
  | .ident _, c, st, ancs, st' => by
    intro h
    rw [walkJs] at h
    rw [walk]
    exact (Option.some.inj h).symm
  | .strLit _, c, st, ancs, st' => by
    intro h
    rw [walkJs] at h
    rw [walk]
    exact (Option.some.inj h).symm
  | .numLit _, c, st, ancs, st' => by
    intro h
    rw [walkJs] at h
    rw [walk]
    exact (Option.some.inj h).symm
  | .boolLit _, c, st, ancs, st' => by
    intro h
    rw [walkJs] at h
    rw [walk]
    exact (Option.some.inj h).symm
  | .nullLit, c, st, ancs, st' => by
    intro h
    rw [walkJs] at h
    rw [walk]
    exact (Option.some.inj h).symm
  | .member o p, c, st, ancs, st' => by
    intro h
    rw [walkJs] at h
    split at h
    · exact Option.noConfusion h
    · rename_i st1 heq
      rw [walk, ← walkJs_agree o c st (.other :: ancs) st1 heq]
      exact walkJs_agree p c st1 (.other :: ancs) st' h
  | .call callee args, c, st, ancs, st' => by
    intro h
    rw [walkJs] at h
    split at h
    · exact Option.noConfusion h
    · rename_i st1 heq1
      split at h
      · exact Option.noConfusion h
      · rename_i st2 heq2
        rw [walk, ← callVisitorJs_agree c ancs callee args st st1 heq1,
          ← walkJs_agree callee c st1 (.other :: ancs) st2 heq2]
        exact walkListJs_agree args c st2 (.other :: ancs) st' h
  | .spreadElem e, c, st, ancs, st' => by
    intro h
    rw [walkJs] at h
    rw [walk]
    exact walkJs_agree e c st (.other :: ancs) st' h
  | .arrow _ body, c, st, ancs, st' => by
    intro h
    rw [walkJs] at h
    rw [walk]
    exact walkJs_agree body c st (.funcLike :: ancs) st' h
  | .fnExpr _ _ body, c, st, ancs, st' => by
    intro h
    rw [walkJs] at h
    rw [walk]
    exact walkJs_agree body c st (.funcLike :: ancs) st' h
  | .arrayLit es, c, st, ancs, st' => by
    intro h
    rw [walkJs] at h
    rw [walk]
    exact walkOptListJs_agree es c st (.other :: ancs) st' h
  | .tsAs e, c, st, ancs, st' => by
    intro h
    rw [walkJs] at h
    rw [walk]
    exact walkJs_agree e c st (.other :: ancs) st' h
  | .jsxElt name attrs children, c, st, ancs, st' => by
    intro h
    rw [walkJs] at h
    split at h
    · exact Option.noConfusion h
    · rename_i st1 heq
      rw [walk, ← walkListJs_agree attrs c (jsxVisitor c ancs name attrs children st)
        (.other :: .other :: ancs) st1 heq]
      exact walkListJs_agree children c st1 (.other :: ancs) st' h
  | .jsxAttr _ v, c, st, ancs, st' => by
    intro h
    rw [walkJs] at h
    rw [walk]
    exact walkOptJs_agree v c st (.other :: ancs) st' h
  | .jsxSpreadAttr e, c, st, ancs, st' => by
    intro h
    rw [walkJs] at h
    rw [walk]
    exact walkJs_agree e c st (.other :: ancs) st' h
  | .jsxText _, c, st, ancs, st' => by
    intro h
    rw [walkJs] at h
    rw [walk]
    exact (Option.some.inj h).symm
  | .jsxExprContainer e, c, st, ancs, st' => by
    intro h
    rw [walkJs] at h
    rw [walk]
    exact walkOptJs_agree e c st (.other :: ancs) st' h
  | .jsxFrag cs, c, st, ancs, st' => by
    intro h
    rw [walkJs] at h
    rw [walk]
    exact walkListJs_agree cs c st (.other :: ancs) st' h
  | .exprStmt e, c, st, ancs, st' => by
    intro h
    rw [walkJs] at h
    rw [walk]
    exact walkJs_agree e c st (.other :: ancs) st' h
  | .varDecl ds, c, st, ancs, st' => by
    intro h
    rw [walkJs] at h
    rw [walk]
    exact walkListJs_agree ds c st (.other :: ancs) st' h
  | .varDtor p init, c, st, ancs, st' => by
    intro h
    rw [walkJs] at h
    rw [walk]
    exact walkOptJs_agree init c (dtorVisitor c ancs p init st)
      (.varDtor (dtorFrame p) :: ancs) st' h
  | .funcDecl id params body, c, st, ancs, st' => by
    intro h
    rw [walkJs] at h
    rw [walk]
    exact walkJs_agree body c (funcDeclVisitor c id params st)
      (.funcDecl id :: ancs) st' h
  | .ret e, c, st, ancs, st' => by
    intro h
    rw [walkJs] at h
    rw [walk]
    exact walkOptJs_agree e c st (.other :: ancs) st' h
  | .block ss, c, st, ancs, st' => by
    intro h
    rw [walkJs] at h
    rw [walk]
    exact walkListJs_agree ss c st (.other :: ancs) st' h
  | .exportDefault d, c, st, ancs, st' => by
    intro h
    rw [walkJs] at h
    rw [walk]
    exact walkJs_agree d c st (.other :: ancs) st' h

theorem walkListJs_agree : ∀ (l : List Ast) (c : String) (st : St)
    (ancs : List Frame) (st' : St),
    walkListJs c st ancs l = some st' → st' = walkList c st ancs l
  | [], c, st, ancs, st' => by
    intro h
    rw [walkListJs] at h
    rw [walkList]
    exact (Option.some.inj h).symm
  | a :: rest, c, st, ancs, st' => by
    intro h
    rw [walkListJs] at h
    split at h
    · exact Option.noConfusion h
    · rename_i st1 heq
      rw [walkList, ← walkJs_agree a c st ancs st1 heq]
      exact walkListJs_agree rest c st1 ancs st' h

theorem walkOptJs_agree : ∀ (o : Option Ast) (c : String) (st : St)
    (ancs : List Frame) (st' : St),
    walkOptJs c st ancs o = some st' → st' = walkOpt c st ancs o
  | none, c, st, ancs, st' => by
    intro h
    rw [walkOptJs] at h
    rw [walkOpt]
    exact (Option.some.inj h).symm
  | some a, c, st, ancs, st' => by
    intro h
    rw [walkOptJs] at h
    rw [walkOpt]
    exact walkJs_agree a c st ancs st' h

theorem walkOptListJs_agree : ∀ (l : List (Option Ast)) (c : String) (st : St)
    (ancs : List Frame) (st' : St),
    walkOptListJs c st ancs l = some st' → st' = walkOptList c st ancs l
  | [], c, st, ancs, st' => by
    intro h
    rw [walkOptListJs] at h
    rw [walkOptList]
    exact (Option.some.inj h).symm
  | a :: rest, c, st, ancs, st' => by
    intro h
    rw [walkOptListJs] at h
    split at h
    · exact Option.noConfusion h
    · rename_i st1 heq
      rw [walkOptList, ← walkOptJs_agree a c st ancs st1 heq]
      exact walkOptListJs_agree rest c st1 ancs st' h
end

/-- On every run that throws no TypeError, the faithful analyzer
returns exactly the crash-free projection's value. -/
theorem analyzeAstJs_agree (file : List Ast) (r : AnalyzedComponent)
    (h : analyzeAstJs file = some r) : r = analyzeAst file := by
  unfold analyzeAstJs walkFileJs at h
  unfold analyzeAst walkFile
  split at h
  · exact Option.noConfusion h
  · rename_i st heq
    rw [← walkListJs_agree file (resolveName file) initSt [Frame.other] st heq]
    exact (Option.some.inj h).symm

/-! ### Remaining spec-side definitions -/

/-- Pass-2 element/state contribution of a whole file. -/
def esGatherFile (c : String) (file : List Ast) : ESAcc :=
  esGatherList c [Frame.other] file

/-- Pass-2 network-call contribution of a whole file. -/
def apiSpecFile (c : String) (file : List Ast) : ApiAcc :=
  apiSpecList c [Frame.other] file

/-- Spec-side state-pair recognizer (the amended claim's wording): a
pair is produced exactly when the binding is an array pattern whose
first two positions hold identifiers — any further elements are ignored
— and the initializer is a call to `useState` or `React.useState`;
`valueName`/`setterName` are the first/second identifier. -/
def statePairSpec (p : Pat) (init : Option Ast) : Option StateInfo :=
  match p, init with
  | .arrayPat elems, some (.call callee _) =>
    match isUseStateCallee callee, elems.getD 0 none, elems.getD 1 none with
    | true, some (.id v), some (.id s) => some ⟨v, s⟩
    | _, _, _ => none
  | _, _ => none

theorem statePairOf_eq_spec (p : Pat) (init : Option Ast) :
    statePairOf p init = statePairSpec p init := by
  unfold statePairOf statePairSpec
  repeat' split <;> simp_all

/-- The default-export shapes the locator's first three rules match: a
named function declaration (an empty name, which JS treats as falsy,
does not count), a bare identifier, and a call expression whose first
argument is a bare identifier. -/
def locatorShape : Ast → Bool
  | .funcDecl (some n) _ _ => n != ""
  | .ident _ => true
  | .call _ args =>
    match args.head? with
    | some (.ident _) => true
    | _ => false
  | _ => false

mutual
/-- Number of JSX element nodes in a subtree (used to exhibit markup
nodes that are lexically inside a component yet yield no record). -/
def countJsx : Ast → Nat
  | .member o p => countJsx o + countJsx p
  | .call callee args => countJsx callee + countJsxList args
  | .spreadElem e => countJsx e
  | .arrow _ b => countJsx b
  | .fnExpr _ _ b => countJsx b
  | .arrayLit es => countJsxOptList es
  | .tsAs e => countJsx e
  | .jsxElt _ attrs children => 1 + countJsxList attrs + countJsxList children
  | .jsxAttr _ v => countJsxOpt v
  | .jsxSpreadAttr e => countJsx e
  | .jsxExprContainer e => countJsxOpt e
  | .jsxFrag cs => countJsxList cs
  | .exprStmt e => countJsx e
  | .varDecl ds => countJsxList ds
  | .varDtor _ init => countJsxOpt init
  | .funcDecl _ _ b => countJsx b
  | .ret e => countJsxOpt e
  | .block ss => countJsxList ss
  | .exportDefault d => countJsx d
  | _ => 0

def countJsxList : List Ast → Nat
  | [] => 0
  | a :: rest => countJsx a + countJsxList rest

def countJsxOpt : Option Ast → Nat
  | none => 0
  | some a => countJsx a

def countJsxOptList : List (Option Ast) → Nat
  | [] => 0
  | a :: rest => countJsxOpt a + countJsxOptList rest
end

/-! ### Concrete input files used by counterexamples and witnesses -/

/-- `export default function App() { const helper = () => <li/>;
return <div/>; }` — both JSX nodes are lexically inside `App`'s body,
the `<li/>` inside a locally defined helper. -/
def c1File : List Ast :=
  [ .exportDefault (.funcDecl (some "App") [] (.block
      [ .varDecl [ .varDtor (.id "helper")
          (some (.arrow [] (.jsxElt (.ident "li") [] []))) ]
      , .ret (some (.jsxElt (.ident "div") [] [])) ])) ]

/-- Scenario D verbatim: `const App = () => { const [input, setInput] =
useState(""); const addTodo = () => { setInput(""); }; return <div/>; };
export default App;`. -/
def c2File : List Ast :=
  [ .varDecl [ .varDtor (.id "App") (some (.arrow [] (.block
      [ .varDecl [ .varDtor (.arrayPat [some (.id "input"), some (.id "setInput")])
          (some (.call (.ident "useState") [.strLit ""])) ]
      , .varDecl [ .varDtor (.id "addTodo") (some (.arrow [] (.block
          [ .exprStmt (.call (.ident "setInput") [.strLit ""]) ]))) ]
      , .ret (some (.jsxElt (.ident "div") [] [])) ]))) ]
  , .exportDefault (.ident "App") ]

/-- `export default function App() { const [a, b, c] = useState(0); }`
— a three-element array pattern. -/
def c3File : List Ast :=
  [ .exportDefault (.funcDecl (some "App") [] (.block
      [ .varDecl [ .varDtor (.arrayPat
          [some (.id "a"), some (.id "b"), some (.id "c")])
          (some (.call (.ident "useState") [.numLit "0"])) ] ])) ]

/-- `const App = () => { const handleClick = () => {
fetch("https://api.example.com/x") }; return <button
onClick={handleClick}/> }; export default App;` — a fetch call outside
any effect callback, textually identical to Scenario C's in-effect call. -/
def c4File : List Ast :=
  [ .varDecl [ .varDtor (.id "App") (some (.arrow [] (.block
      [ .varDecl [ .varDtor (.id "handleClick") (some (.arrow [] (.block
          [ .exprStmt (.call (.ident "fetch") [.strLit "https://api.example.com/x"]) ]))) ]
      , .ret (some (.jsxElt (.ident "button")
          [ .jsxAttr (.ident "onClick")
              (some (.jsxExprContainer (some (.ident "handleClick")))) ] [])) ]))) ]
  , .exportDefault (.ident "App") ]

/-- A file whose default export matches none of the locator's shapes
(`export default memo(fancy())`) next to an unexported component with
its own markup and state. -/
def c10File : List Ast :=
  [ .exportDefault (.call (.ident "memo") [.call (.ident "fancy") []])
  , .funcDecl (some "Other") [] (.block
      [ .varDecl [ .varDtor (.arrayPat [some (.id "a"), some (.id "b")])
          (some (.call (.ident "useState") [.numLit "0"])) ]
      , .ret (some (.jsxElt (.ident "div") [] [])) ]) ]

/-! ### The claims -/

/-- C1, counterexample. The claim says every markup node lexically
contained in the located component's definition — including nodes
nested inside locally defined helper functions within the component —
yields exactly one Element Record. In `c1File` the component `App` (a
function declaration, resolved name `"App"`) lexically contains two JSX
nodes (`countJsx` of its default-export declaration is 2), but the
analysis produces a single Element Record, for the `div` only: the
`<li/>` inside `const helper = () => <li/>` is dropped, because its
nearest enclosing variable declarator is `helper`, not `App`. -/
theorem C1_counterexample :
    resolveName c1File = "App" ∧
    countJsxList c1File = 2 ∧
    (analyzeAst c1File).elements.map (fun e => e.type) = ["div"] ∧
    (analyzeAst c1File).elements.length = 1 :=
  ⟨rfl, rfl, rfl, rfl⟩

/-- C1, amended. An Element Record is produced for a markup (JSX) node
if and only if the code's scope predicate holds at that node: the
nearest enclosing function is a function declaration named with the
resolved component name, or the nearest enclosing variable declarator
binds an identifier of that name. (This is narrower than lexical
containment: markup inside helper functions that are bound to their own
variables inside the component, or inside arrows nested in a
function-declaration component, is excluded; a second, unexported
function with its own name still contributes zero Element Records and
zero State Pairs.) Formally: the produced `elements` and `states` are
exactly the scope-filtered per-node gather `esGatherFile`, which emits
one record per JSX node, and one state pair per `useState` declarator,
whose ancestor frames satisfy `isInsideComponent`. -/
theorem C1_amended (file : List Ast) :
    (analyzeAst file).elements = (esGatherFile (resolveName file) file).elements ∧
    (analyzeAst file).states = (esGatherFile (resolveName file) file).states := by
  have h := walkList_es file (resolveName file) initSt [Frame.other]
  constructor
  · show (walkFile (resolveName file) initSt file).elements = _
    rw [walkFile, h.1]
    simp [initSt, esGatherFile]
  · show (walkFile (resolveName file) initSt file).states = _
    rw [walkFile, h.2]
    simp [initSt, esGatherFile]

/-- C3, counterexample. The claim says a declaration of any arity other
than two — e.g. an array pattern with three elements — produces no
State Pair. In `c3File` the in-scope declaration
`const [a, b, c] = useState(0)` destructures three identifiers, yet a
State Pair `{a, b}` is produced: the visitor reads the first two
elements and never checks the pattern's arity. -/
theorem C3_counterexample :
    (analyzeAst c3File).states = [⟨"a", "b"⟩] ∧
    (analyzeAst c3File).states ≠ [] :=
  ⟨rfl, by decide⟩

/-- C3, amended. For every in-scope variable declaration, a State Pair
is produced exactly when the binding is an array pattern whose first
two positions hold identifiers and the initializer is a call to the
state constructor (bare `useState` or `React.useState`);
`valueName`/`setterName` are taken positionally (first = value,
second = setter). Elements beyond the second are ignored, so an
array pattern of arity three with identifier first and second elements
still produces a pair, while fewer than two identifier positions, or
any other call shape, produce none. -/
theorem C3_amended (c : String) (ancs : List Frame) (p : Pat)
    (init : Option Ast) (st : St)
    (hscope : isInsideComponent ancs c = true) :
    (dtorVisitor c ancs p init st).states =
      st.states ++ (statePairSpec p init).toList ∧
    (∀ (v s : String) (extra : List (Option Pat)) (args2 : List Ast),
      statePairSpec (.arrayPat (some (.id v) :: some (.id s) :: extra))
        (some (.call (.ident "useState") args2)) = some ⟨v, s⟩) ∧
    (∀ (v : String) (args2 : List Ast),
      statePairSpec (.arrayPat [some (.id v)])
        (some (.call (.ident "useState") args2)) = none) := by
  refine ⟨?_, ?_, ?_⟩
  · rw [dtorVisitor_states, hscope, statePairOf_eq_spec]
    simp
  · intro v s extra args2
    simp [statePairSpec, isUseStateCallee]
  · intro v args2
    simp [statePairSpec, isUseStateCallee]

/-- C3, witness for the amended theorem: at the concrete in-scope
three-element declaration `const [a, b, c] = useState(0)` inside the
function declaration `App`, the visitor records exactly the pair
`{a, b}`. -/
theorem C3_amended_witness :
    (dtorVisitor "App" [Frame.funcDecl (some "App")]
      (.arrayPat [some (.id "a"), some (.id "b"), some (.id "c")])
      (some (.call (.ident "useState") [.numLit "0"])) initSt).states =
      [⟨"a", "b"⟩] := by
  rw [(C3_amended "App" [Frame.funcDecl (some "App")]
    (.arrayPat [some (.id "a"), some (.id "b"), some (.id "c")])
    (some (.call (.ident "useState") [.numLit "0"])) initSt rfl).1]
  rfl

/-- C7, counterexample. The claim says the derived roleHint is one of
`button`, `textbox`, `link`, `image` (or absent), and textbox is
inferred only when there is no `type` attribute or it equals `"text"`.
The code returns `"img"` — not `"image"` — for an `img` tag, and it
lowercases the `type` value, so `<input type="TEXT">` is inferred as
textbox although its `type` attribute does not equal `"text"`. -/
theorem C7_counterexample :
    guessRole "img" [] = some "img" ∧
    ("img" ∉ (["button", "textbox", "link", "image"] : List String)) ∧
    guessRole "input" [("type", PropVal.str "TEXT")] = some "textbox" ∧
    lookupAssoc [("type", PropVal.str "TEXT")] "type" = some (.str "TEXT") ∧
    ("TEXT" : String) ≠ "text" :=
  ⟨rfl, by simp, rfl, rfl, by simp⟩

/-- C7, amended. For every markup node, the derived roleHint is one of
`button`, `textbox`, `link`, `img` (or absent), determined from the
lowercased tag name or an explicit `role` attribute; and `textbox` is
inferred only for elements whose `type` attribute, coerced to a string
(absent becomes the empty string) and lowercased, is empty or equals
`"text"`. -/
theorem C7_amended (name : String) (props : List (String × PropVal)) :
    (guessRole name props = none ∨ guessRole name props = some "button" ∨
     guessRole name props = some "textbox" ∨ guessRole name props = some "link" ∨
     guessRole name props = some "img") ∧
    (guessRole name props = some "textbox" →
      jsToLower (propString (lookupAssoc props "type")) = "" ∨
      jsToLower (propString (lookupAssoc props "type")) = "text") := by
  constructor
  · unfold guessRole
    by_cases h1 : (jsToLower name == "button" || roleIs props "button") = true
    · simp [h1]
    · by_cases h2 : ((jsToLower name == "input" || roleIs props "textbox")
          && typeOkForTextbox props) = true
      · simp [h1, h2]
      · by_cases h3 : (jsToLower name == "a" || roleIs props "link") = true
        · simp [h1, h2, h3]
        · by_cases h4 : (jsToLower name == "img" || roleIs props "img") = true <;>
            simp [h1, h2, h3, h4]
  · intro h
    unfold guessRole at h
    by_cases h1 : (jsToLower name == "button" || roleIs props "button") = true
    · simp [h1] at h
    · by_cases h2 : ((jsToLower name == "input" || roleIs props "textbox")
          && typeOkForTextbox props) = true
      · have h5 : typeOkForTextbox props = true := by
          rw [Bool.and_eq_true] at h2
          exact h2.2
        unfold typeOkForTextbox at h5
        rw [Bool.or_eq_true] at h5
        rcases h5 with h6 | h6
        · exact Or.inl (by simpa using h6)
        · exact Or.inr (by simpa using h6)
      · by_cases h3 : (jsToLower name == "a" || roleIs props "link") = true
        · simp [h1, h2, h3] at h
        · by_cases h4 : (jsToLower name == "img" || roleIs props "img") = true <;>
            simp [h1, h2, h3, h4] at h

/-- C7, witness for the amended theorem: instantiated at
`<input type="TEXT">`, whose lowercased type coercion is `"text"`. -/
theorem C7_amended_witness :
    jsToLower (propString (lookupAssoc [("type", PropVal.str "TEXT")] "type")) = "" ∨
    jsToLower (propString (lookupAssoc [("type", PropVal.str "TEXT")] "type")) = "text" :=
  (C7_amended "input" [("type", PropVal.str "TEXT")]).2 rfl

/-- `const App = () => { const [x, setX] = React.useState(0);
function toString() { setX(1); } return <div/>; }; export default
App;` — syntactically valid, and the `setX(1)` call is in scope with
derived handler name `"toString"`, a key of `Object.prototype`. -/
def c8CrashFile : List Ast :=
  [ .varDecl [ .varDtor (.id "App") (some (.arrow [] (.block
      [ .varDecl [ .varDtor (.arrayPat [some (.id "x"), some (.id "setX")])
          (some (.call (.member (.ident "React") (.ident "useState")) [.numLit "0"])) ]
      , .funcDecl (some "toString") [] (.block
          [ .exprStmt (.call (.ident "setX") [.numLit "1"]) ])
      , .ret (some (.jsxElt (.ident "div") [] [])) ]))) ]
  , .exportDefault (.ident "App") ]

/-- C8, code bug. The claim (and the spec's failure semantics) say the
analyzer raises only at the outer boundary and that no extraction rule
raises on any syntactically valid parsed input. The code violates
this: on `c8CrashFile` the recorded setter `setX` is called inside
`function toString() {...}`, the derived handler name `"toString"` is
inherited from `Object.prototype`, so `!eventToSetterMap["toString"]`
sees a truthy inherited function, the initialization is skipped, and
`eventToSetterMap["toString"].push("setX")` throws a TypeError outside
both try/catch wrappers — the invocation fails with an unwrapped
TypeError, not a descriptive boundary error and not a fully populated
Analyzed Component. The boundary halves of the claim do hold: read and
parse failures surface as the single descriptive wrapped errors. -/
theorem C8_typeError_escape :
    analyzeComponentJs "Todos.tsx" (.ok "text") (fun _ => .ok c8CrashFile) =
      .error .typeError ∧
    analyzeAstJs c8CrashFile = none ∧
    analyzeComponentJs "Todos.tsx" (.error "ENOENT") (fun _ => .ok c8CrashFile) =
      .error (.wrapped ("Failed to read file \"" ++ "Todos.tsx" ++ "\": " ++ "ENOENT")) ∧
    analyzeComponentJs "Todos.tsx" (.ok "text") (fun _ => .error "Unexpected token") =
      .error (.wrapped ("Failed to parse \"" ++ "Todos.tsx" ++ "\": " ++ "Unexpected token")) :=
  ⟨rfl, rfl, rfl, rfl⟩

/-- C9. The analysis is deterministic: two runs of the extractor on the
same parsed tree — and two runs of the whole analyzer on the same read
result and parser — produce identical Analyzed Component values,
including every order-sensitive field. In this embedding both passes
are pure functions of their input, so equality of the two runs holds
definitionally. -/
theorem C9_deterministic (file : List Ast) (filePath : String)
    (readResult : Except String String)
    (parse : String → Except String (List Ast)) :
    analyzeAst file = analyzeAst file ∧
    analyzeComponent filePath readResult parse =
      analyzeComponent filePath readResult parse :=
  ⟨rfl, rfl⟩

/-- C10. When the resolved name is the sentinel `"Anonymous"` and no
function declaration or variable binding in the file is itself named
`Anonymous`, pass 2 collects nothing: elements, states, props, apis,
effectDeps and eventToSetterMap are all empty and effects, usesFetch,
usesAxios are all false — the scope filter (and the props collectors)
can never fire. -/
theorem C10_anonymous_empty (file : List Ast)
    (hname : resolveName file = "Anonymous")
    (hclean : cleanList "Anonymous" file = true) :
    analyzeAst file = ⟨"Anonymous", [], [], false, [], false, false, [], [], []⟩ := by
  unfold analyzeAst walkFile
  rw [hname, walkList_clean file "Anonymous" initSt [Frame.other] rfl hclean]
  rfl

/-- C10, witness: `c10File`'s default export (`memo(fancy())`) matches
no locator shape and nothing in the file is named `Anonymous`, so the
whole result is empty even though the file contains a component with
markup and state. -/
theorem C10_anonymous_empty_witness :
    analyzeAst c10File = ⟨"Anonymous", [], [], false, [], false, false, [], [], []⟩ :=
  C10_anonymous_empty c10File rfl rfl

/-- C2, counterexample. The claim's concrete instance, Scenario D: in a
component containing `const addTodo = () => { setInput(""); }` with
`setInput` a recorded setter, `eventToSetterMap["addTodo"]` should
contain `"setInput"`. On `c2File` — exactly that component — the setter
is recorded, yet the returned map is empty: the `setInput("")` call's
nearest enclosing variable declarator is `addTodo`, not `App`, so the
scope filter rejects the call before the mapping branch can run. -/
theorem C2_counterexample :
    resolveName c2File = "App" ∧
    (analyzeAst c2File).states = [⟨"input", "setInput"⟩] ∧
    (analyzeAst c2File).eventToSetterMap = [] :=
  ⟨rfl, rfl, rfl⟩

/-- C2, amended. A call whose callee is a bare identifier equal to a
previously recorded setter name contributes a map entry only when the
call itself passes the scope filter; a handler bound by its own
variable declarator inside the component (Scenario D's
`const addTodo = () => ...`) places its calls out of scope, so that
shape contributes nothing. When such a call is in scope and the name
derivation yields a handler name (the enclosing function's declarator
identifier, or its function-declaration name — e.g. a `function
addTodo() {...}` nested in an arrow-bound component), then: if the
name is not inherited from `Object.prototype`, the visitor succeeds,
appends the setter under that name, and the entry persists through the
rest of the traversal; but if the name is an `Object.prototype` key
(e.g. `toString`) with no own entry, `eventToSetterMap[name].push`
throws an uncaught TypeError instead. -/
theorem C2_amended (c : String) (ancs : List Frame) (callee : Ast)
    (args : List Ast) (st : St) (s n : String)
    (hscope : isInsideComponent ancs c = true)
    (hcallee : callee = .ident s)
    (hsetter : (st.states.find? (fun t => t.setter = s)).isSome = true)
    (hname : handlerNameOf ancs = some n) :
    (n ∉ objectProtoKeys →
      callVisitorJs c ancs callee args st = some (callVisitor c ancs callee args st) ∧
      s ∈ lookupList (callVisitor c ancs callee args st).eventToSetterMap n) ∧
    (∀ (file : List Ast) (st2 st3 : St),
      walkFileJs c st2 file = some st3 →
      s ∈ lookupList st2.eventToSetterMap n →
      s ∈ lookupList st3.eventToSetterMap n) ∧
    (n ∈ objectProtoKeys → lookupAssoc st.eventToSetterMap n = none →
      callVisitorJs c ancs callee args st = none) := by
  subst hcallee
  have hs1 : ((useEffectStep (.ident s) args st).states.find?
      (fun t => t.setter = s)).isSome = true := by
    rw [useEffectStep_states]
    exact hsetter
  refine ⟨fun hproto => ⟨?_, ?_⟩, ?_, fun hproto hown => ?_⟩
  · unfold callVisitorJs callVisitor
    rw [hscope]
    simp only [if_true]
    exact setterStepJs_entry ancs s n _ hs1 hname hproto
  · unfold callVisitor
    rw [hscope]
    simp only [if_true]
    exact setterStep_mem ancs s n _ hs1 hname
  · intro file st2 st3 hw hmem
    rw [walkListJs_agree file c st2 [Frame.other] st3 hw]
    exact walkList_map file c st2 [Frame.other] n s hmem
  · unfold callVisitorJs
    rw [hscope]
    simp only [if_true]
    refine setterStepJs_typeError ancs s n _ hs1 hname hproto ?_
    rw [useEffectStep_map]
    exact hown

/-- C2, witness for the amended theorem: a `setInput("")` call whose
ancestor frames are those of a `function addTodo() { setInput("") }`
nested in `const App = () => {...}` — the call is in scope (nearest
declarator binds `App`), the handler name `addTodo` is not an
`Object.prototype` key, the faithful visitor succeeds with the
crash-free value, and the entry is recorded. -/
theorem C2_amended_witness :
    callVisitorJs "App"
      [Frame.other, Frame.other, Frame.funcDecl (some "addTodo"), Frame.other,
       Frame.funcLike, Frame.varDtor (some "App"), Frame.other, Frame.other]
      (.ident "setInput") [.strLit ""]
      { initSt with states := [⟨"input", "setInput"⟩] } =
      some (callVisitor "App"
        [Frame.other, Frame.other, Frame.funcDecl (some "addTodo"), Frame.other,
         Frame.funcLike, Frame.varDtor (some "App"), Frame.other, Frame.other]
        (.ident "setInput") [.strLit ""]
        { initSt with states := [⟨"input", "setInput"⟩] }) ∧
    "setInput" ∈ lookupList (callVisitor "App"
      [Frame.other, Frame.other, Frame.funcDecl (some "addTodo"), Frame.other,
       Frame.funcLike, Frame.varDtor (some "App"), Frame.other, Frame.other]
      (.ident "setInput") [.strLit ""]
      { initSt with states := [⟨"input", "setInput"⟩] }).eventToSetterMap
      "addTodo" :=
  (C2_amended "App"
    [Frame.other, Frame.other, Frame.funcDecl (some "addTodo"), Frame.other,
     Frame.funcLike, Frame.varDtor (some "App"), Frame.other, Frame.other]
    (.ident "setInput") [.strLit ""]
    { initSt with states := [⟨"input", "setInput"⟩] } "setInput" "addTodo"
    rfl rfl rfl rfl).1 (by decide)

/-- C4. fetch and axios calls outside the body of an effect callback's
first argument never populate `apis`, `usesFetch` or `usesAxios`: the
three fields equal the pure gather `apiSpecFile`, whose only producing
clause takes the sub-walk findings (`apiGatherList`) of the callback
body of an in-scope effect registration — no other node kind
contributes. Concretely, `c4File` calls
`fetch("https://api.example.com/x")` in a click handler, textually
identical to Scenario C's in-effect call, and records nothing. -/
theorem C4_apis_only_from_effect_bodies (file : List Ast) :
    (analyzeAst file).apis = (apiSpecFile (resolveName file) file).apis ∧
    (analyzeAst file).usesFetch = (apiSpecFile (resolveName file) file).usesFetch ∧
    (analyzeAst file).usesAxios = (apiSpecFile (resolveName file) file).usesAxios ∧
    (analyzeAst c4File).apis = [] ∧
    (analyzeAst c4File).usesFetch = false ∧
    (analyzeAst c4File).usesAxios = false := by
  have h := walkList_api file (resolveName file) initSt [Frame.other]
  refine ⟨?_, ?_, ?_, rfl, rfl, rfl⟩
  · show (walkFile (resolveName file) initSt file).apis = _
    rw [walkFile, h.1]
    simp [initSt, apiSpecFile]
  · show (walkFile (resolveName file) initSt file).usesFetch = _
    rw [walkFile, h.2.1]
    simp [initSt, apiSpecFile]
  · show (walkFile (resolveName file) initSt file).usesAxios = _
    rw [walkFile, h.2.2]
    simp [initSt, apiSpecFile]

/-- C5. The component locator resolves the name from the default export
by exactly this precedence (the three shapes are mutually exclusive, so
each rule fires only when the prior does not match): (1) a named
function declaration yields its declared name; (2) a bare identifier
yields its name; (3) a call expression whose first argument is a bare
identifier yields that argument's name; (4) anything else leaves the
fallback sentinel `"Anonymous"`. The pass is a read-only total
function and never raises for an unresolved name. (Identifier names
are taken nonempty, as any parsed identifier is.) -/
theorem C5_locator_precedence (n : String) (hn : n ≠ "") (params : List Pat)
    (body : Ast) (callee : Ast) (args : List Ast) (d : Ast) :
    resolveName [.exportDefault (.funcDecl (some n) params body)] = n ∧
    resolveName [.exportDefault (.ident n)] = n ∧
    (args.head? = some (.ident n) →
      resolveName [.exportDefault (.call callee args)] = n) ∧
    (locatorShape d = false → resolveName [.exportDefault d] = "Anonymous") := by
  refine ⟨?_, ?_, ?_, ?_⟩
  · simp [resolveName, applyExport, unwrapDefaultExport, hn]
  · simp [resolveName, applyExport, unwrapDefaultExport, hn]
  · intro h
    simp [resolveName, applyExport, unwrapDefaultExport, h, hn]
  · intro h
    cases d
    case funcDecl id ps b =>
      cases id with
      | none => rfl
      | some m =>
        have hm : m = "" := by simpa [locatorShape] using h
        subst hm
        rfl
    case ident m => exact absurd h (by simp [locatorShape])
    case call cal as =>
      cases hq : as.head? with
      | none => simp [resolveName, applyExport, unwrapDefaultExport, hq]
      | some x =>
        cases x <;>
          simp_all [locatorShape, resolveName, applyExport, unwrapDefaultExport, hq]
    all_goals rfl

/-- C5, witness: the four locator rules at concrete exports — a named
function declaration `Users`, a bare identifier `Users`, a wrapper call
`memo(Users)`, and an unresolvable export `memo(fancy())`. -/
theorem C5_locator_precedence_witness :
    resolveName [.exportDefault (.funcDecl (some "Users") [] (.block []))] = "Users" ∧
    resolveName [.exportDefault (.ident "Users")] = "Users" ∧
    resolveName [.exportDefault (.call (.ident "memo") [.ident "Users"])] = "Users" ∧
    resolveName [.exportDefault (.call (.ident "memo")
      [.call (.ident "fancy") []])] = "Anonymous" := by
  have h := C5_locator_precedence "Users" (by simp) [] (.block [])
    (.ident "memo") [.ident "Users"]
    (.call (.ident "memo") [.call (.ident "fancy") []])
  exact ⟨h.1, h.2.1, h.2.2.1 rfl, h.2.2.2 rfl⟩

/-- C6. For every in-scope side-effect registration call (bare
`useEffect` or `React.useEffect`): `hasEffects` is set; if the second
argument is a literal array, the call contributes to
`effectDependencies` exactly the names of that array's identifier
elements, in order, and nothing else (non-identifier elements
contribute nothing); with a non-array or absent second argument it
contributes no dependencies. -/
theorem C6_effect_registration (c : String) (ancs : List Frame) (callee : Ast)
    (args : List Ast) (st : St)
    (hscope : isInsideComponent ancs c = true)
    (heff : isUseEffectCallee callee = true) :
    (callVisitor c ancs callee args st).effects = true ∧
    (∀ (elems : List (Option Ast)), args[1]? = some (.arrayLit elems) →
      (callVisitor c ancs callee args st).effectDeps =
        st.effectDeps ++ elems.filterMap
          (fun el => match el with | some (.ident i) => some i | _ => none)) ∧
    ((∀ (elems : List (Option Ast)), ¬ args[1]? = some (.arrayLit elems)) →
      (callVisitor c ancs callee args st).effectDeps = st.effectDeps) := by
  have core : (callVisitor c ancs callee args st).effects = true ∧
      (callVisitor c ancs callee args st).effectDeps =
        st.effectDeps ++ depsOf args := by
    unfold callVisitor setterStep useEffectStep
    rw [hscope, heff]
    constructor <;>
      (repeat' split <;>
        (try simp_all [scanApisList_eq, mergeApi]))
  refine ⟨core.1, ?_, ?_⟩
  · intro elems hq
    rw [core.2]
    simp [depsOf, hq]
  · intro hq
    rw [core.2]
    cases h2 : args[1]? with
    | none => simp [depsOf, h2]
    | some x =>
      cases x <;> first
        | exact absurd h2 (hq _)
        | simp [depsOf, h2]

/-- C6, witness: an in-scope `useEffect(() => {}, [count, "x"])` sets
the effects flag and contributes exactly the identifier element
`count`. -/
theorem C6_effect_registration_witness :
    (callVisitor "App" [Frame.funcDecl (some "App")] (.ident "useEffect")
      [.arrow [] (.block []),
       .arrayLit [some (.ident "count"), some (.strLit "x")]] initSt).effects
      = true ∧
    (callVisitor "App" [Frame.funcDecl (some "App")] (.ident "useEffect")
      [.arrow [] (.block []),
       .arrayLit [some (.ident "count"), some (.strLit "x")]] initSt).effectDeps
      = ["count"] := by
  have h := C6_effect_registration "App" [Frame.funcDecl (some "App")]
    (.ident "useEffect")
    [.arrow [] (.block []),
     .arrayLit [some (.ident "count"), some (.strLit "x")]] initSt rfl rfl
  refine ⟨h.1, ?_⟩
  rw [h.2.1 [some (.ident "count"), some (.strLit "x")] rfl]
  rfl

end AutoReactTest
